import Mathlib

/-!
Verification development for the Undercover-style party-game engine in
`suskia.py`.  The Python `GameSession` dataclass and its methods, together
with the handler-level validation code (`select_roles`, `select_card`,
`handle_elimination`, `handle_round_end`), are embedded shallowly below.

Randomness is parametrised: `random.shuffle(seats)` becomes an explicit
`shuffled` argument (a permutation of the seat list in the theorems that
need it), and `random.choice(WORD_PAIRS)` becomes an explicit index
argument reduced modulo the list length.  Python exceptions (KeyError,
IndexError, ValueError) are modelled as `Option.none`; the session state
passed around is otherwise updated exactly as the mutating Python code
does.  The transport-only field `name_prompt_message_id` (a Telegram
message id never read by the game logic) is omitted.
-/

namespace Suskia

/-- One player, mirroring the Python `Player` dataclass (suskia.py lines
213-224).  `role` is the literal Python string tag: "", "C", "U" or "W". -/
structure Player where
  seat : Nat
  name : String
  role : String
  word : String
  eliminated : Bool
  card : Option Nat
  score : Int
  telegram_id : Option Nat
deriving DecidableEq, Repr

/-- `Player(seat=seat, name=f"Player {seat}")` with the dataclass defaults
for the remaining fields (suskia.py lines 243-245). -/
def mkPlayer (seat : Nat) : Player :=
  { seat := seat, name := "Player " ++ toString seat, role := "", word := "",
    eliminated := false, card := none, score := 0, telegram_id := none }

/-- The `GameSession` dataclass (suskia.py lines 227-240).  The Python
`players` dict maps seat → Player with keys inserted in seat order 1..N and
never extended afterwards, so it is embedded as the list of players in
insertion order; `self.players.keys()` is `seatsOf` and `self.players[seat]`
is `lookup` below. -/
structure GameSession where
  num_players : Nat
  players : List Player
  pending_seats : List Nat
  available_cards : List Nat
  elimination_log : List Nat
  role_distribution : Option (Int × Int × Int)
  word_pair : Option (String × String)
  name_order : List Nat
  next_name_index : Nat
deriving DecidableEq, Repr

/-- `list(self.players.keys())`. -/
def seatsOf (s : GameSession) : List Nat := s.players.map (·.seat)

/-- Dict lookup `self.players[seat]` / `self.players.get(seat)`: the seats
are unique in every reachable session, so `find?` returns the entry. -/
def lookup (ps : List Player) (seat : Nat) : Option Player :=
  ps.find? (fun p => decide (p.seat = seat))

/-- In-place mutation of the player object stored under `seat`. -/
def updatePlayer (ps : List Player) (seat : Nat) (f : Player → Player) : List Player :=
  ps.map (fun p => if p.seat = seat then f p else p)

/-- `GameSession.__post_init__` (suskia.py lines 242-249) for a session
created with `GameSession(num_players)`:  players 1..N with default names,
`pending_seats`, `available_cards` and `name_order` all `list(players.keys())`,
every other field at its dataclass default. -/
def initSession (num_players : Nat) : GameSession :=
  { num_players := num_players,
    players := (List.range' 1 num_players).map mkPlayer,
    pending_seats := List.range' 1 num_players,
    available_cards := List.range' 1 num_players,
    elimination_log := [],
    role_distribution := none,
    word_pair := none,
    name_order := List.range' 1 num_players,
    next_name_index := 0 }

/-- `WORDS_LIBRARY["C"]` (suskia.py lines 66-136). -/
def WORDS_C : List String :=
  ["DOG", "ICE CREAM", "MEATBALLS", "KUNG FU", "CAMPING", "COCA COLA", "CAR",
   "GUITAR", "SUNRISE", "RIVER", "APPLE", "TEA", "FORK", "CHAIR", "PIZZA",
   "LAPTOP", "HAT", "OWL", "SNOW", "LAKE", "OCEAN", "ROSE", "SKATEBOARD",
   "SOFA", "TENNIS", "COW", "BOOK", "BICYCLE", "PEN", "GLASSES", "BANANA",
   "BEACH", "WINE", "TRAIN", "CINEMA", "SANDALS", "FISH", "WINTER", "GOLF",
   "PARROT", "VOLLEYBALL", "TIGER", "PAINTING", "MOUNTAIN", "JAZZ", "FOREST",
   "ROCK", "CANDLE", "KITE", "CLOCK", "CHOCOLATE", "WHISKEY", "ELEPHANT",
   "NEWSPAPER", "SPOON", "RAINBOW", "CAMERA", "SAILBOAT", "GARDEN", "CAKE",
   "MONKEY", "SCISSORS", "POOL", "CELLPHONE", "ZEBRA", "RUGBY", "PUMPKIN",
   "COMPUTER", "STOVE"]

/-- `WORDS_LIBRARY["U"]` (suskia.py lines 137-207). -/
def WORDS_U : List String :=
  ["WOLF", "YOGHURT", "CHICKEN NUGGETS", "KARATE", "PICNIC", "FANTA", "TRUCK",
   "VIOLIN", "SUNSET", "STREAM", "PEAR", "COFFEE", "SPOON", "STOOL", "BURGER",
   "TABLET", "CAP", "EAGLE", "RAIN", "POND", "SEA", "TULIP", "ROLLERBLADES",
   "ARMCHAIR", "BADMINTON", "BULL", "MAGAZINE", "MOTORBIKE", "PENCIL",
   "SUNGLASSES", "MANGO", "LAKE", "BEER", "SUBWAY", "THEATRE", "FLIP FLOPS",
   "SHARK", "SUMMER", "BASEBALL", "CANARY", "SOCCER", "LEOPARD", "SKETCH",
   "HILL", "BLUES", "JUNGLE", "PEBBLE", "LANTERN", "BALLOON", "WATCH",
   "CANDY", "RUM", "RHINO", "BLOG", "FORK", "CLOUD", "BINOCULARS", "YACHT",
   "PARK", "PIE", "APE", "RAZOR", "LAKE", "SMARTPHONE", "HORSE", "FOOTBALL",
   "SQUASH", "LAPTOP", "OVEN"]

/-- `WORD_PAIRS = list(zip(WORDS_LIBRARY["C"], WORDS_LIBRARY["U"]))`
(suskia.py line 210). -/
def WORD_PAIRS : List (String × String) := WORDS_C.zip WORDS_U

/-- `ROLE_POINTS = ... ` dict (suskia.py line 63); absent keys are `none`
(a Python `KeyError`). -/
def ROLE_POINTS (r : String) : Option Int :=
  if r = "C" then some 1 else if r = "U" then some 2
  else if r = "W" then some 4 else none

/-- The word-pair selection inside `assign_roles` (suskia.py lines 268-271):
`random.choice(WORD_PAIRS)` when the pair list is truthy (non-empty),
otherwise the all-empty pair.  The random choice is parametrised by an
index reduced modulo the length. -/
def draw_word_pair (pairs : List (String × String)) (k : Nat) : String × String :=
  if pairs.isEmpty then ("", "")
  else pairs.getD (k % pairs.length) ("", "")

/-- `player.role = role; player.word = word` as performed in each of the
three assignment loops of `assign_roles`. -/
def setRoleWord (role word : String) (p : Player) : Player :=
  { p with role := role, word := word }

/-- The per-player reset at the top of `assign_roles` (suskia.py lines
258-262). -/
def clearPlayer (p : Player) : Player :=
  { p with role := "", word := "", eliminated := false, card := none }

/-- One `for _ in range(count): seat = seats[index]; index += 1; ...`
assignment loop of `assign_roles` (suskia.py lines 274-293); `count` is
already `max(pythonCount, 0)` iterations since `range` of a negative int is
empty.  Indexing past the end of `seats` is a Python `IndexError`,
modelled as `none`. -/
def assignLoop (ps : List Player) (seats : List Nat) (index : Nat) (count : Nat)
    (role word : String) : Option (List Player × Nat) :=
  match count with
  | 0 => some (ps, index)
  | n + 1 =>
    match seats.get? index with
    | none => none
    | some seat =>
      assignLoop (updatePlayer ps seat (setRoleWord role word)) seats (index + 1) n role word

/-- `GameSession.assign_roles` (suskia.py lines 252-293), generalised over
the configured pair list so that the empty-word-bank behaviour is statable;
`shuffled` is the result of `random.shuffle(list(self.players.keys()))` and
`k` selects the word pair.  The three `IndexError` paths collapse to
`none`. -/
def assign_roles_with (pairs : List (String × String)) (s : GameSession)
    (civilians undercovers mr_white : Int) (shuffled : List Nat) (k : Nat) :
    Option GameSession :=
  let base : GameSession :=
    { s with
      role_distribution := some (civilians, undercovers, mr_white),
      elimination_log := [],
      pending_seats := seatsOf s,
      available_cards := seatsOf s,
      players := s.players.map clearPlayer }
  let wp := draw_word_pair pairs k
  match assignLoop base.players shuffled 0 civilians.toNat "C" wp.1 with
  | none => none
  | some (ps1, i1) =>
    match assignLoop ps1 shuffled i1 undercovers.toNat "U" wp.2 with
    | none => none
    | some (ps2, i2) =>
      match assignLoop ps2 shuffled i2 mr_white.toNat "W" "" with
      | none => none
      | some (ps3, _) => some { base with players := ps3, word_pair := some wp }

/-- `assign_roles` on the actual module-level `WORD_PAIRS`. -/
def assign_roles (s : GameSession) (civilians undercovers mr_white : Int)
    (shuffled : List Nat) (k : Nat) : Option GameSession :=
  assign_roles_with WORD_PAIRS s civilians undercovers mr_white shuffled k

/-- Result of the `select_roles` handler (suskia.py lines 544-580):
either the distribution-mismatch rejection message or a successful
assignment. -/
inductive RolesReply where
  | distributionMismatch
  | assigned
deriving DecidableEq, Repr

/-- The `select_roles` handler validation and call (suskia.py lines
564-568): the only check is `civilians + undercovers + mr_white !=
session.num_players`; on mismatch the session is left untouched. -/
def select_roles (s : GameSession) (civilians undercovers mr_white : Int)
    (shuffled : List Nat) (k : Nat) : Option (RolesReply × GameSession) :=
  if civilians + undercovers + mr_white ≠ (s.num_players : Int) then
    some (.distributionMismatch, s)
  else
    match assign_roles s civilians undercovers mr_white shuffled k with
    | none => none
    | some s' => some (.assigned, s')

/-- `GameSession.register_card_choice` (suskia.py lines 296-302): pop the
head pending seat, record the card and the drawing user on that player,
remove the card from the available pool, return the player.  Popping an
empty queue, a missing dict key, and `list.remove` of an absent value are
Python exceptions, modelled as `none`. -/
def register_card_choice (s : GameSession) (card_value : Nat) (user_id : Nat) :
    Option (Player × GameSession) :=
  match s.pending_seats with
  | [] => none
  | seat :: rest =>
    match lookup s.players seat with
    | none => none
    | some player =>
      if card_value ∈ s.available_cards then
        some ({ player with card := some card_value, telegram_id := some user_id },
          { s with
            pending_seats := rest,
            players := updatePlayer s.players seat
              (fun p => { p with card := some card_value, telegram_id := some user_id }),
            available_cards := s.available_cards.erase card_value })
      else none

/-- Python `list.sort()` on ints: the sorted permutation of the list. -/
def pySort (l : List Nat) : List Nat := l.mergeSort (· ≤ ·)

/-- `GameSession.revert_card_choice` (suskia.py lines 304-312): push the
seat back to the front of the pending queue, re-insert the card value and
re-sort the pool, clear the card and restore the previous user binding.
`player` is the (aliased) object that `register_card_choice` returned. -/
def revert_card_choice (s : GameSession) (player : Player)
    (previous_user : Option Nat) : GameSession :=
  let s1 := { s with pending_seats := player.seat :: s.pending_seats }
  let s2 :=
    match player.card with
    | some c => { s1 with available_cards := pySort (s1.available_cards ++ [c]) }
    | none => s1
  { s2 with
    players := updatePlayer s2.players player.seat
      (fun p => { p with card := none, telegram_id := previous_user }) }

/-- Python truthiness of `player.telegram_id` (`None` and `0` are falsy). -/
def optTruthy : Option Nat → Bool
  | none => false
  | some n => n != 0

/-- Replies of the `select_card` handler. -/
inductive CardReply where
  | allCardsDrawn
  | cardAlreadyTaken
  | notYourTurn
  | ok
deriving DecidableEq, Repr

/-- The `select_card` handler (suskia.py lines 583-620) up to and including
`register_card_choice`: empty pending queue → "All cards have already been
drawn"; card not available → "Card already taken"; head player already
bound to a different (truthy) Telegram user → "It's ...'s turn to draw";
otherwise the draw is registered. -/
def select_card (s : GameSession) (user_id card_value : Nat) :
    Option (CardReply × GameSession) :=
  match s.pending_seats with
  | [] => some (.allCardsDrawn, s)
  | seat :: _ =>
    if card_value ∉ s.available_cards then some (.cardAlreadyTaken, s)
    else
      match lookup s.players seat with
      | none => none
      | some player =>
        if optTruthy player.telegram_id ∧ player.telegram_id ≠ some user_id then
          some (.notYourTurn, s)
        else
          match register_card_choice s card_value user_id with
          | none => none
          | some (_, s') => some (.ok, s')

/-- `player.name = proposed_name` after a successfully delivered secret
word (suskia.py line 657). -/
def renameSeat (s : GameSession) (seat : Nat) (nm : String) : GameSession :=
  { s with players := updatePlayer s.players seat (fun p => { p with name := nm }) }

/-- `GameSession.active_players` (suskia.py lines 315-316). -/
def active_players (s : GameSession) : List Player :=
  s.players.filter (fun p => !p.eliminated)

/-- `GameSession.civilians_remaining` (suskia.py lines 318-319). -/
def civilians_remaining (s : GameSession) : Nat :=
  (active_players s).countP (fun p => decide (p.role = "C"))

/-- `GameSession.infiltrators_remaining` (suskia.py lines 321-322). -/
def infiltrators_remaining (s : GameSession) : Nat :=
  (active_players s).countP (fun p => decide (p.role = "U" ∨ p.role = "W"))

/-- `GameSession.outcome` (suskia.py lines 330-337). -/
def outcome (s : GameSession) : Option String :=
  if infiltrators_remaining s = 0 then some "civilians"
  else if civilians_remaining s = 0 ∨ civilians_remaining s ≤ infiltrators_remaining s then
    some "infiltrators"
  else none

/-- `GameSession.eliminate` (suskia.py lines 324-328); the unguarded
`self.players[seat]` access is a `KeyError` (`none`) for an unknown seat. -/
def eliminate (s : GameSession) (seat : Nat) : Option GameSession :=
  match lookup s.players seat with
  | none => none
  | some _ =>
    some { s with
      players := updatePlayer s.players seat (fun p => { p with eliminated := true }),
      elimination_log := s.elimination_log ++ [seat] }

/-- `GameSession.apply_scores` (suskia.py lines 363-373). -/
def apply_scores (s : GameSession) (oc : String) : GameSession :=
  if oc = "civilians" then
    { s with
      players := s.players.map (fun p =>
        if p.role = "C" then { p with score := p.score + (ROLE_POINTS "C").getD 0 }
        else p) }
  else
    { s with
      players := s.players.map (fun p =>
        if p.role = "U" ∧ p.eliminated = false then
          { p with score := p.score + (ROLE_POINTS "U").getD 0 }
        else if p.role = "W" ∧ p.eliminated = false then
          { p with score := p.score + (ROLE_POINTS "W").getD 0 }
        else p) }

/-- Replies of the `handle_elimination` handler.  Both an unknown seat and
an already-eliminated seat hit the single guard
`if not player or player.eliminated` and produce the same
"That player is already out." alert. -/
inductive ElimReply where
  | playerAlreadyOut
  | roundOver (oc : String)
  | continueElimination
deriving DecidableEq, Repr

/-- The `handle_elimination` handler (suskia.py lines 684-719) combined
with the scoring part of `finalize_round` (line 728): guard, eliminate,
recompute the outcome, and apply the round scores when it is decided. -/
def handle_elimination (s : GameSession) (seat : Nat) : ElimReply × GameSession :=
  match lookup s.players seat with
  | none => (.playerAlreadyOut, s)
  | some player =>
    if player.eliminated then (.playerAlreadyOut, s)
    else
      match eliminate s seat with
      | none => (.playerAlreadyOut, s)
      | some s1 =>
        match outcome s1 with
        | some oc => (.roundOver oc, apply_scores s1 oc)
        | none => (.continueElimination, s1)

/-- `GameSession.reset_for_next_round` (suskia.py lines 384-388): a
`ValueError` (modelled `none`) when no distribution is stored — note that a
stored tuple is always truthy in Python — otherwise `assign_roles` with the
stored triple. -/
def reset_for_next_round (s : GameSession) (shuffled : List Nat) (k : Nat) :
    Option GameSession :=
  match s.role_distribution with
  | none => none
  | some (c, u, w) => assign_roles s c u w shuffled k

/-- `GameSession.current_name_seat` (suskia.py lines 340-343). -/
def current_name_seat (s : GameSession) : Option Nat :=
  if s.next_name_index < s.name_order.length then s.name_order.get? s.next_name_index
  else none

/-- `GameSession.set_current_player_name` (suskia.py lines 345-352). -/
def set_current_player_name (s : GameSession) (nm : String) : GameSession :=
  match current_name_seat s with
  | none => s
  | some seat =>
    { s with
      players := updatePlayer s.players seat (fun p => { p with name := nm }),
      next_name_index := s.next_name_index + 1 }

/-- `GameSession.skip_current_player_name` (suskia.py lines 354-360). -/
def skip_current_player_name (s : GameSession) : GameSession :=
  match current_name_seat s with
  | none => s
  | some _ => { s with next_name_index := s.next_name_index + 1 }

/-- The card values recorded on the players, in seat order. -/
def drawnCards (s : GameSession) : List Nat := s.players.filterMap (·.card)

/-- One step of the session as driven by the handlers.  Randomness
(`random.shuffle`, `random.choice`) appears as the `shuffled`/`k`
parameters, external user input (Telegram user ids, card values, names) as
the remaining parameters.  `draw_reverted` is the `select_card` path in
which the secret-word DM fails and `revert_card_choice(player,
previous_user)` is invoked with the player returned by
`register_card_choice` and the binding read just before it
(suskia.py lines 619-649). -/
inductive Step : GameSession → GameSession → Prop where
  | roles (s : GameSession) (civ und wht : Int) (sh : List Nat) (k : Nat)
      (r : RolesReply) (s' : GameSession)
      (hsh : sh.Perm (seatsOf s))
      (h : select_roles s civ und wht sh k = some (r, s')) : Step s s'
  | draw_ok (s : GameSession) (u c : Nat) (s' : GameSession)
      (seat : Nat) (rest : List Nat) (nm : String)
      (hpend : s.pending_seats = seat :: rest)
      (h : select_card s u c = some (.ok, s')) :
      Step s (renameSeat s' seat nm)
  | draw_fail (s : GameSession) (u c : Nat) (r : CardReply) (s' : GameSession)
      (hr : r ≠ .ok)
      (h : select_card s u c = some (r, s')) : Step s s'
  | draw_reverted (s : GameSession) (u c : Nat) (seat : Nat) (rest : List Nat)
      (pl p : Player) (s1 : GameSession)
      (hpend : s.pending_seats = seat :: rest)
      (hc : c ∈ s.available_cards)
      (hlook : lookup s.players seat = some pl)
      (hreg : register_card_choice s c u = some (p, s1)) :
      Step s (revert_card_choice s1 p pl.telegram_id)
  | eliminate_seat (s : GameSession) (seat : Nat) :
      Step s (handle_elimination s seat).2
  | next_round (s : GameSession) (sh : List Nat) (k : Nat) (s' : GameSession)
      (hsh : sh.Perm (seatsOf s))
      (h : reset_for_next_round s sh k = some s') : Step s s'
  | name_set (s : GameSession) (nm : String) : Step s (set_current_player_name s nm)
  | name_skip (s : GameSession) : Step s (skip_current_player_name s)

/-- The session states reachable from `GameSession(n)` for a player count
accepted by `select_players` (3..10, the keys of `ROLE_PRESETS`). -/
inductive Reachable : GameSession → Prop where
  | init (n : Nat) (h3 : 3 ≤ n) (h10 : n ≤ 10) : Reachable (initSession n)
  | step (s s' : GameSession) (h : Reachable s) (hs : Step s s') : Reachable s'

/-- The master state invariant: seats are exactly 1..N in order, the
available cards together with the drawn cards are a permutation of 1..N,
the pending queue lists exactly the card-less seats, the card pool is
kept sorted, and the elimination log names eliminated seats without
repetition. -/
structure Inv (s : GameSession) : Prop where
  seats_eq : seatsOf s = List.range' 1 s.num_players
  cards_perm : (s.available_cards ++ drawnCards s).Perm (List.range' 1 s.num_players)
  pending_eq : s.pending_seats =
    (s.players.filter (fun p => decide (p.card = none))).map (·.seat)
  avail_sorted : s.available_cards.Sorted (· ≤ ·)
  log_mem : ∀ t ∈ s.elimination_log, ∃ p ∈ s.players, p.seat = t ∧ p.eliminated = true
  log_nodup : s.elimination_log.Nodup

/-! ### Generic helper lemmas -/

theorem map_updatePlayer {α : Type} (g : Player → α) (ps : List Player) (t : Nat)
    (f : Player → Player) (h : ∀ p, g (f p) = g p) :
    (updatePlayer ps t f).map g = ps.map g := by
  unfold updatePlayer
  rw [List.map_map]
  refine List.map_congr_left fun p _ => ?_
  by_cases hp : p.seat = t <;> simp [Function.comp, hp, h]

theorem update_update (ps : List Player) (t : Nat) (f g : Player → Player)
    (hf : ∀ p, (f p).seat = p.seat) :
    updatePlayer (updatePlayer ps t f) t g = updatePlayer ps t (fun p => g (f p)) := by
  unfold updatePlayer
  rw [List.map_map]
  refine List.map_congr_left fun p _ => ?_
  by_cases hp : p.seat = t <;> simp [Function.comp, hp, hf]

theorem update_id (ps : List Player) (t : Nat) (f : Player → Player)
    (h : ∀ p ∈ ps, p.seat = t → f p = p) :
    updatePlayer ps t f = ps := by
  unfold updatePlayer
  conv_rhs => rw [← List.map_id ps]
  refine List.map_congr_left fun p hp => ?_
  by_cases hs : p.seat = t <;> simp [hs, h p hp]

theorem update_not_mem (ps : List Player) (t : Nat) (f : Player → Player)
    (h : t ∉ ps.map (·.seat)) : updatePlayer ps t f = ps := by
  refine update_id ps t f fun p hp hs => absurd ?_ h
  exact hs ▸ List.mem_map_of_mem _ hp

theorem filterMap_card_congr (ps qs : List Player)
    (h : ps.map (·.card) = qs.map (·.card)) :
    ps.filterMap (·.card) = qs.filterMap (·.card) := by
  induction ps generalizing qs with
  | nil => cases qs with
    | nil => rfl
    | cons q qs => simp at h
  | cons p ps ih =>
    cases qs with
    | nil => simp at h
    | cons q qs =>
      simp only [List.map_cons, List.cons.injEq] at h
      rw [List.filterMap_cons, List.filterMap_cons, h.1, ih qs h.2]

theorem filter_none_map_seat_congr (ps qs : List Player)
    (hs : ps.map (·.seat) = qs.map (·.seat))
    (hc : ps.map (·.card) = qs.map (·.card)) :
    (ps.filter (fun p => decide (p.card = none))).map (·.seat)
      = (qs.filter (fun p => decide (p.card = none))).map (·.seat) := by
  induction ps generalizing qs with
  | nil => cases qs with
    | nil => rfl
    | cons q qs => simp at hs
  | cons p ps ih =>
    cases qs with
    | nil => simp at hs
    | cons q qs =>
      simp only [List.map_cons, List.cons.injEq] at hs hc
      by_cases h : q.card = none
      · simp [List.filter_cons, hc.1, h, hs.1, ih qs hs.2 hc.2]
      · simp [List.filter_cons, hc.1, h, ih qs hs.2 hc.2]

theorem lookup_seat {ps : List Player} {t : Nat} {p : Player}
    (h : lookup ps t = some p) : p.seat = t := by
  have := List.find?_some h
  simpa using this

theorem lookup_mem {ps : List Player} {t : Nat} {p : Player}
    (h : lookup ps t = some p) : p ∈ ps :=
  List.mem_of_find?_eq_some h

theorem lookup_isSome {ps : List Player} {t : Nat}
    (h : t ∈ ps.map (·.seat)) : ∃ p, lookup ps t = some p := by
  obtain ⟨p, hp, hseat⟩ := List.mem_map.mp h
  have : (ps.find? (fun q => decide (q.seat = t))).isSome := by
    rw [List.find?_isSome]
    exact ⟨p, hp, by simp [hseat]⟩
  obtain ⟨q, hq⟩ := Option.isSome_iff_exists.mp this
  exact ⟨q, hq⟩

theorem seat_unique (ps : List Player) (t : Nat) (p : Player) :
    (ps.map (·.seat)).Nodup → lookup ps t = some p →
    ∀ q ∈ ps, q.seat = t → q = p := by
  induction ps with
  | nil => intro _ _ q hq; simp at hq
  | cons a ps ih =>
    intro hnd hl q hq hqt
    simp only [List.map_cons, List.nodup_cons] at hnd
    unfold lookup at hl
    by_cases ha : a.seat = t
    · rw [List.find?_cons_of_pos _ (by simpa using ha)] at hl
      obtain rfl : a = p := by injection hl
      rcases List.mem_cons.mp hq with rfl | hq'
      · rfl
      · exfalso
        apply hnd.1
        have hmem : q.seat ∈ ps.map (·.seat) := List.mem_map_of_mem _ hq'
        have h2 : a.seat = q.seat := ha.trans hqt.symm
        rw [h2]
        exact hmem
    · rw [List.find?_cons_of_neg _ (by simpa using ha)] at hl
      rcases List.mem_cons.mp hq with rfl | hq'
      · exact absurd hqt ha
      · exact ih hnd.2 hl q hq' hqt

theorem drawn_update_perm (t v : Nat) (u : Option Nat) :
    ∀ (ps : List Player), (ps.map (·.seat)).Nodup →
    ∀ pl : Player, lookup ps t = some pl → pl.card = none →
    ((updatePlayer ps t
        (fun p => { p with card := some v, telegram_id := u })).filterMap (·.card)).Perm
      (v :: ps.filterMap (·.card)) := by
  intro ps
  induction ps with
  | nil => intro _ pl hl; unfold lookup at hl; simp at hl
  | cons a ps ih =>
    intro hnd pl hl hcard
    simp only [List.map_cons, List.nodup_cons] at hnd
    unfold lookup at hl
    by_cases ha : a.seat = t
    · rw [List.find?_cons_of_pos _ (by simpa using ha)] at hl
      have hapl : a = pl := by injection hl
      subst hapl
      have hskip : updatePlayer ps t
          (fun p => { p with card := some v, telegram_id := u }) = ps :=
        update_not_mem ps t _ (ha ▸ hnd.1)
      have hupd : updatePlayer (a :: ps) t
          (fun p => { p with card := some v, telegram_id := u })
          = { a with card := some v, telegram_id := u } :: updatePlayer ps t
              (fun p => { p with card := some v, telegram_id := u }) := by
        simp [updatePlayer, ha]
      rw [hupd, hskip]
      simp [List.filterMap_cons, hcard]
    · rw [List.find?_cons_of_neg _ (by simpa using ha)] at hl
      have hupd : updatePlayer (a :: ps) t
          (fun p => { p with card := some v, telegram_id := u })
          = a :: updatePlayer ps t
              (fun p => { p with card := some v, telegram_id := u }) := by
        simp [updatePlayer, ha]
      rw [hupd]
      have hrec := ih hnd.2 pl hl hcard
      cases hac : a.card with
      | none => simpa [List.filterMap_cons, hac] using hrec
      | some c =>
        simp only [List.filterMap_cons, hac]
        exact (List.Perm.cons c hrec).trans (List.Perm.swap v c _)

theorem pending_update (t : Nat) (f : Player → Player)
    (hfc : ∀ p, (f p).card ≠ none) :
    ∀ (ps : List Player) (rest : List Nat), (ps.map (·.seat)).Nodup →
    (ps.filter (fun p => decide (p.card = none))).map (·.seat) = t :: rest →
    ((updatePlayer ps t f).filter (fun p => decide (p.card = none))).map (·.seat) = rest := by
  intro ps
  induction ps with
  | nil => intro rest _ hpend; simp at hpend
  | cons a ps ih =>
    intro rest hnd hpend
    simp only [List.map_cons, List.nodup_cons] at hnd
    by_cases hac : a.card = none
    · have h1 : a.seat = t ∧
          (ps.filter (fun p => decide (p.card = none))).map (·.seat) = rest := by
        simpa [List.filter_cons, hac] using hpend
      have hupd : updatePlayer (a :: ps) t f = f a :: updatePlayer ps t f := by
        simp [updatePlayer, h1.1]
      have hskip : updatePlayer ps t f = ps := update_not_mem ps t f (h1.1 ▸ hnd.1)
      rw [hupd, hskip]
      simpa [List.filter_cons, hfc a] using h1.2
    · have hpend' : (ps.filter (fun p => decide (p.card = none))).map (·.seat)
          = t :: rest := by
        simpa [List.filter_cons, hac] using hpend
      by_cases ha : a.seat = t
      · exfalso
        have ht1 : t ∈ (ps.filter (fun p => decide (p.card = none))).map (·.seat) := by
          rw [hpend']
          exact List.mem_cons_self _ _
        obtain ⟨q, hq, hqs⟩ := List.mem_map.mp ht1
        have ht2 : t ∈ ps.map (·.seat) :=
          hqs ▸ List.mem_map_of_mem _ (List.mem_of_mem_filter hq)
        exact hnd.1 (ha ▸ ht2)
      · have hupd : updatePlayer (a :: ps) t f = a :: updatePlayer ps t f := by
          simp [updatePlayer, ha]
        rw [hupd]
        have hrec := ih rest hnd.2 hpend'
        simpa [List.filter_cons, hac] using hrec

theorem sorted_le_range' (a n : Nat) : List.Sorted (· ≤ ·) (List.range' a n) :=
  (List.pairwise_lt_range' a n).imp Nat.le_of_lt

theorem sorted_lt_of_le_nodup {l : List Nat}
    (hs : l.Sorted (· ≤ ·)) (hn : l.Nodup) : l.Sorted (· < ·) :=
  (hs.and hn).imp fun h => Nat.lt_of_le_of_ne h.1 h.2

/-! ### Derived facts about the invariant -/

theorem Inv.seats_nodup {s : GameSession} (h : Inv s) :
    (s.players.map (·.seat)).Nodup := by
  have := h.seats_eq
  unfold seatsOf at this
  rw [this]
  exact List.nodup_range' 1 s.num_players

theorem Inv.cards_nodup {s : GameSession} (h : Inv s) :
    (s.available_cards ++ drawnCards s).Nodup :=
  h.cards_perm.nodup_iff.mpr (List.nodup_range' 1 s.num_players)

theorem Inv.avail_nodup {s : GameSession} (h : Inv s) :
    s.available_cards.Nodup :=
  h.cards_nodup.of_append_left

theorem Inv.drawn_nodup {s : GameSession} (h : Inv s) :
    (drawnCards s).Nodup :=
  h.cards_nodup.of_append_right

/-- The head of the pending queue is the seat of a card-less player, and
looking it up succeeds with that player. -/
theorem Inv.head_lookup {s : GameSession} (h : Inv s) {seat : Nat} {rest : List Nat}
    (hpend : s.pending_seats = seat :: rest) :
    ∃ pl, lookup s.players seat = some pl ∧ pl.card = none := by
  have hp := h.pending_eq
  rw [hpend] at hp
  have hmem : seat ∈ (s.players.filter (fun p => decide (p.card = none))).map (·.seat) := by
    rw [← hp]
    exact List.mem_cons_self _ _
  obtain ⟨q, hq, hqs⟩ := List.mem_map.mp hmem
  have hqmem : q ∈ s.players := List.mem_of_mem_filter hq
  have hqcard : q.card = none := by
    have := List.of_mem_filter hq
    simpa using this
  obtain ⟨pl, hpl⟩ := lookup_isSome (hqs ▸ List.mem_map_of_mem (fun p : Player => p.seat) hqmem)
  have : q = pl := seat_unique s.players seat pl h.seats_nodup hpl q hqmem hqs
  exact ⟨pl, hpl, this ▸ hqcard⟩

theorem exists_elim_map {ps : List Player} {g : Player → Player}
    (hseat : ∀ p, (g p).seat = p.seat)
    (helim : ∀ p, p.eliminated = true → (g p).eliminated = true) {t : Nat} :
    (∃ p ∈ ps, p.seat = t ∧ p.eliminated = true) →
    ∃ p ∈ ps.map g, p.seat = t ∧ p.eliminated = true := by
  rintro ⟨p, hp, h1, h2⟩
  exact ⟨g p, List.mem_map_of_mem g hp, by rw [hseat, h1], helim p h2⟩

/-- The invariant only looks at the player count, the per-player seats,
cards and eliminated flags, the pending queue, the card pool and the log;
it transfers along any state change that preserves them. -/
theorem inv_transfer {s s' : GameSession} (h : Inv s)
    (hn : s'.num_players = s.num_players)
    (hseats : s'.players.map (·.seat) = s.players.map (·.seat))
    (hcards : s'.players.map (·.card) = s.players.map (·.card))
    (helim : ∀ t, (∃ p ∈ s.players, p.seat = t ∧ p.eliminated = true) →
        ∃ p ∈ s'.players, p.seat = t ∧ p.eliminated = true)
    (hpend : s'.pending_seats = s.pending_seats)
    (havail : s'.available_cards = s.available_cards)
    (hlog : s'.elimination_log = s.elimination_log) :
    Inv s' := by
  constructor
  · show s'.players.map (·.seat) = _
    rw [hseats, hn]
    exact h.seats_eq
  · show (s'.available_cards ++ s'.players.filterMap (·.card)).Perm _
    rw [havail, filterMap_card_congr _ _ hcards, hn]
    exact h.cards_perm
  · rw [hpend, h.pending_eq]
    exact (filter_none_map_seat_congr _ _ hseats hcards).symm
  · rw [havail]
    exact h.avail_sorted
  · intro t ht
    rw [hlog] at ht
    exact helim t (h.log_mem t ht)
  · rw [hlog]
    exact h.log_nodup

theorem filterMap_const_none {α β : Type} (l : List α) :
    l.filterMap (fun _ => (none : Option β)) = [] := by
  induction l with
  | nil => rfl
  | cons a l ih => simp [List.filterMap_cons, ih]

theorem inv_init (n : Nat) : Inv (initSession n) := by
  constructor
  · show ((List.range' 1 n).map mkPlayer).map (·.seat) = List.range' 1 n
    rw [List.map_map]
    have h : ((fun x : Player => x.seat) ∘ mkPlayer) = id := rfl
    rw [h, List.map_id]
  · show (List.range' 1 n ++ ((List.range' 1 n).map mkPlayer).filterMap (·.card)).Perm
      (List.range' 1 n)
    rw [List.filterMap_map]
    have h : ((fun x : Player => x.card) ∘ mkPlayer) = fun _ => (none : Option Nat) := rfl
    rw [h, filterMap_const_none, List.append_nil]
  · show List.range' 1 n
      = (((List.range' 1 n).map mkPlayer).filter (fun p => decide (p.card = none))).map (·.seat)
    rw [List.filter_map]
    have h : ((fun p : Player => decide (p.card = none)) ∘ mkPlayer) = fun _ => true := rfl
    rw [h, List.filter_true, List.map_map]
    have h2 : ((fun x : Player => x.seat) ∘ mkPlayer) = id := rfl
    rw [h2, List.map_id]
  · exact sorted_le_range' 1 n
  · intro t ht
    simp [initSession] at ht
  · simp [initSession]

theorem assignLoop_map {α : Type} (g : Player → α)
    (hg : ∀ r w p, g (setRoleWord r w p) = g p) :
    ∀ (n : Nat) (ps : List Player) (sh : List Nat) (i : Nat) (r w : String)
      (ps' : List Player) (i' : Nat),
      assignLoop ps sh i n r w = some (ps', i') → ps'.map g = ps.map g := by
  intro n
  induction n with
  | zero =>
    intro ps sh i r w ps' i' h
    unfold assignLoop at h
    injection h with h1
    injection h1 with h2 h3
    rw [← h2]
  | succ n ih =>
    intro ps sh i r w ps' i' h
    unfold assignLoop at h
    cases hsh : sh.get? i with
    | none => rw [hsh] at h; cases h
    | some t =>
      rw [hsh] at h
      have := ih _ _ _ _ _ _ _ h
      rw [this]
      exact map_updatePlayer g ps t _ (hg r w)

theorem register_eq {s : GameSession} {c u : Nat} {seat : Nat} {rest : List Nat}
    {pl : Player}
    (hpend : s.pending_seats = seat :: rest) (hl : lookup s.players seat = some pl)
    (hc : c ∈ s.available_cards) :
    register_card_choice s c u
      = some ({ pl with card := some c, telegram_id := some u },
        { s with
          pending_seats := rest,
          players := updatePlayer s.players seat
            (fun p => { p with card := some c, telegram_id := some u }),
          available_cards := s.available_cards.erase c }) := by
  simp only [register_card_choice, hpend, hl, hc, if_true]

theorem select_card_fail_eq {s : GameSession} {u c : Nat} {r : CardReply}
    {s' : GameSession}
    (h : select_card s u c = some (r, s')) (hr : r ≠ .ok) : s' = s := by
  unfold select_card at h
  cases hp : s.pending_seats with
  | nil =>
    simp only [hp] at h
    injection h with h1
    injection h1 with h2 h3
    exact h3.symm
  | cons seat rest =>
    simp only [hp] at h
    by_cases hc : c ∈ s.available_cards
    · rw [if_neg (not_not_intro hc)] at h
      cases hl : lookup s.players seat with
      | none =>
        simp only [hl] at h
        exact Option.noConfusion h
      | some pl =>
        simp only [hl] at h
        by_cases ht : optTruthy pl.telegram_id = true ∧ pl.telegram_id ≠ some u
        · rw [if_pos ht] at h
          injection h with h1
          injection h1 with h2 h3
          exact h3.symm
        · rw [if_neg ht] at h
          cases hreg : register_card_choice s c u with
          | none =>
            simp only [hreg] at h
            exact Option.noConfusion h
          | some pr =>
            simp only [hreg] at h
            injection h with h1
            injection h1 with h2 h3
            exact absurd h2.symm hr
    · rw [if_pos hc] at h
      injection h with h1
      injection h1 with h2 h3
      exact h3.symm

theorem select_card_ok {s : GameSession} {u c : Nat} {s' : GameSession} {seat : Nat}
    {rest : List Nat}
    (hpend : s.pending_seats = seat :: rest)
    (h : select_card s u c = some (.ok, s')) :
    c ∈ s.available_cards ∧ ∃ pl, lookup s.players seat = some pl ∧
      s' = { s with
        pending_seats := rest,
        players := updatePlayer s.players seat
          (fun p => { p with card := some c, telegram_id := some u }),
        available_cards := s.available_cards.erase c } := by
  unfold select_card at h
  simp only [hpend] at h
  by_cases hc : c ∈ s.available_cards
  · rw [if_neg (not_not_intro hc)] at h
    cases hl : lookup s.players seat with
    | none =>
      simp only [hl] at h
      exact Option.noConfusion h
    | some pl =>
      simp only [hl] at h
      by_cases ht : optTruthy pl.telegram_id = true ∧ pl.telegram_id ≠ some u
      · rw [if_pos ht] at h
        injection h with h1
        injection h1 with h2 h3
        cases h2
      · rw [if_neg ht] at h
        rw [register_eq hpend hl hc] at h
        injection h with h1
        injection h1 with h2 h3
        exact ⟨hc, pl, rfl, h3.symm⟩
  · rw [if_pos hc] at h
    injection h with h1
    injection h1 with h2 h3
    cases h2

/-- Reverting a draw immediately after registering it restores the session
exactly, provided the head player had no card yet, the seats are unique
and the card pool was sorted — all of which hold in every reachable
state. -/
theorem revert_register {s : GameSession} {c u : Nat} {seat : Nat} {rest : List Nat}
    {pl p : Player} {s1 : GameSession}
    (hnd : (s.players.map (·.seat)).Nodup)
    (hpend : s.pending_seats = seat :: rest)
    (hlook : lookup s.players seat = some pl)
    (hnone : pl.card = none)
    (hsorted : s.available_cards.Sorted (· ≤ ·))
    (hreg : register_card_choice s c u = some (p, s1)) :
    revert_card_choice s1 p pl.telegram_id = s := by
  by_cases hc : c ∈ s.available_cards
  · rw [register_eq hpend hlook hc] at hreg
    injection hreg with h1
    injection h1 with hp hs1
    subst hp
    subst hs1
    have hseat : pl.seat = seat := lookup_seat hlook
    have hY : pySort ((s.available_cards.erase c) ++ [c]) = s.available_cards := by
      have hperm : ((s.available_cards.erase c) ++ [c]).Perm s.available_cards :=
        (List.perm_append_singleton c _).trans (List.perm_cons_erase hc).symm
      exact List.eq_of_perm_of_sorted ((List.mergeSort_perm _ _).trans hperm)
        (List.sorted_mergeSort' _) hsorted
    have hX : updatePlayer
        (updatePlayer s.players seat
          (fun q => { q with card := some c, telegram_id := some u }))
        seat (fun q => { q with card := none, telegram_id := pl.telegram_id })
        = s.players := by
      rw [update_update s.players seat
        (fun q => { q with card := some c, telegram_id := some u })
        (fun q => { q with card := none, telegram_id := pl.telegram_id })
        (fun q => rfl)]
      refine update_id _ _ _ (fun q hq hqs => ?_)
      have hqpl : q = pl := seat_unique s.players seat pl hnd hlook q hq hqs
      subst hqpl
      show ({ q with card := none, telegram_id := q.telegram_id } : Player) = q
      rw [← hnone]
    simp only [revert_card_choice]
    rw [hseat, hX, hY, ← hpend]
  · unfold register_card_choice at hreg
    simp only [hpend, hlook] at hreg
    rw [if_neg hc] at hreg
    exact Option.noConfusion hreg

/-! ### Invariant preservation for each operation -/

theorem inv_assign_roles {pairs : List (String × String)} {s : GameSession}
    {civ und wht : Int} {sh : List Nat} {k : Nat} {s' : GameSession} (h : Inv s)
    (ha : assign_roles_with pairs s civ und wht sh k = some s') : Inv s' := by
  unfold assign_roles_with at ha
  cases hl1 : assignLoop (s.players.map clearPlayer) sh 0 civ.toNat "C"
      (draw_word_pair pairs k).1 with
  | none =>
    simp only [hl1] at ha
    exact Option.noConfusion ha
  | some pr1 =>
    obtain ⟨ps1, i1⟩ := pr1
    simp only [hl1] at ha
    cases hl2 : assignLoop ps1 sh i1 und.toNat "U" (draw_word_pair pairs k).2 with
    | none =>
      simp only [hl2] at ha
      exact Option.noConfusion ha
    | some pr2 =>
      obtain ⟨ps2, i2⟩ := pr2
      simp only [hl2] at ha
      cases hl3 : assignLoop ps2 sh i2 wht.toNat "W" "" with
      | none =>
        simp only [hl3] at ha
        exact Option.noConfusion ha
      | some pr3 =>
        obtain ⟨ps3, i3⟩ := pr3
        simp only [hl3] at ha
        injection ha with ha'
        subst ha'
        have hseat3 : ps3.map (·.seat) = (s.players.map clearPlayer).map (·.seat) := by
          rw [assignLoop_map (·.seat) (fun r w p => rfl) _ _ _ _ _ _ _ _ hl3,
            assignLoop_map (·.seat) (fun r w p => rfl) _ _ _ _ _ _ _ _ hl2,
            assignLoop_map (·.seat) (fun r w p => rfl) _ _ _ _ _ _ _ _ hl1]
        have hcard3 : ps3.map (·.card) = (s.players.map clearPlayer).map (·.card) := by
          rw [assignLoop_map (·.card) (fun r w p => rfl) _ _ _ _ _ _ _ _ hl3,
            assignLoop_map (·.card) (fun r w p => rfl) _ _ _ _ _ _ _ _ hl2,
            assignLoop_map (·.card) (fun r w p => rfl) _ _ _ _ _ _ _ _ hl1]
        have hseat3' : ps3.map (·.seat) = s.players.map (·.seat) := by
          rw [hseat3, List.map_map]
          rfl
        have hcardnone : ∀ p ∈ ps3, p.card = none := by
          intro p hp
          have hm : p.card ∈ ps3.map (·.card) := List.mem_map_of_mem _ hp
          rw [hcard3, List.map_map] at hm
          obtain ⟨x, _, hx⟩ := List.mem_map.mp hm
          exact hx.symm
        have hdrawn : ps3.filterMap (·.card) = [] := by
          rw [List.filterMap_eq_nil_iff]
          intro p hp
          exact hcardnone p hp
        constructor
        · show ps3.map (·.seat) = List.range' 1 s.num_players
          rw [hseat3']
          exact h.seats_eq
        · show (seatsOf s ++ ps3.filterMap (·.card)).Perm (List.range' 1 s.num_players)
          rw [hdrawn, List.append_nil, h.seats_eq]
        · show seatsOf s = (ps3.filter (fun p => decide (p.card = none))).map (·.seat)
          rw [List.filter_eq_self.mpr (fun p hp => by simp [hcardnone p hp])]
          exact hseat3'.symm
        · show (seatsOf s).Sorted (· ≤ ·)
          rw [h.seats_eq]
          exact sorted_le_range' 1 s.num_players
        · intro t ht
          simp at ht
        · show List.Nodup []
          exact List.nodup_nil

theorem inv_select_roles {s : GameSession} {civ und wht : Int} {sh : List Nat}
    {k : Nat} {r : RolesReply} {s' : GameSession} (h : Inv s)
    (hs : select_roles s civ und wht sh k = some (r, s')) : Inv s' := by
  unfold select_roles at hs
  by_cases hsum : civ + und + wht ≠ (s.num_players : Int)
  · rw [if_pos hsum] at hs
    injection hs with h1
    injection h1 with h2 h3
    exact h3 ▸ h
  · rw [if_neg hsum] at hs
    cases ha : assign_roles s civ und wht sh k with
    | none =>
      simp only [ha] at hs
      exact Option.noConfusion hs
    | some s1 =>
      simp only [ha] at hs
      injection hs with h1
      injection h1 with h2 h3
      exact h3 ▸ inv_assign_roles h ha

/-- The session state right after a successful `register_card_choice`
satisfies the invariant. -/
theorem inv_register {s : GameSession} {c u : Nat} {seat : Nat} {rest : List Nat}
    (h : Inv s) (hpend : s.pending_seats = seat :: rest)
    (hc : c ∈ s.available_cards) :
    Inv { s with
      pending_seats := rest,
      players := updatePlayer s.players seat
        (fun p => { p with card := some c, telegram_id := some u }),
      available_cards := s.available_cards.erase c } := by
  obtain ⟨pl, hpl, hplcard⟩ := h.head_lookup hpend
  have hnd := h.seats_nodup
  have hseats : (updatePlayer s.players seat
      (fun p => { p with card := some c, telegram_id := some u })).map (·.seat)
      = s.players.map (·.seat) :=
    map_updatePlayer _ _ _ _ (fun p => rfl)
  have hdrawn := drawn_update_perm seat c (some u) s.players hnd pl hpl hplcard
  constructor
  · show (updatePlayer s.players seat _).map (·.seat) = _
    rw [hseats]
    exact h.seats_eq
  · show (s.available_cards.erase c ++
      (updatePlayer s.players seat _).filterMap (·.card)).Perm _
    refine ((List.Perm.append_left _ hdrawn).trans ?_).trans h.cards_perm
    refine List.perm_middle.trans ?_
    show (c :: (s.available_cards.erase c ++ s.players.filterMap (·.card))).Perm _
    exact List.Perm.append_right _ (List.perm_cons_erase hc).symm
  · show rest = _
    have hpe : (s.players.filter (fun p => decide (p.card = none))).map (·.seat)
        = seat :: rest := by
      rw [← h.pending_eq]
      exact hpend
    exact (pending_update seat _ (fun p => by simp) s.players rest hnd hpe).symm
  · exact h.avail_sorted.sublist (List.erase_sublist c s.available_cards)
  · intro t ht
    refine exists_elim_map (g := fun p =>
        if p.seat = seat then { p with card := some c, telegram_id := some u } else p)
      ?_ ?_ (h.log_mem t ht)
    · intro p
      by_cases hp : p.seat = seat <;> simp [hp]
    · intro p hp
      by_cases hps : p.seat = seat <;> simp [hps, hp]
  · exact h.log_nodup

theorem inv_eliminate {s : GameSession} {seat : Nat} {pl : Player} (h : Inv s)
    (hl : lookup s.players seat = some pl) (he : pl.eliminated = false) :
    Inv { s with
      players := updatePlayer s.players seat (fun p => { p with eliminated := true }),
      elimination_log := s.elimination_log ++ [seat] } := by
  have hnd := h.seats_nodup
  have hseats : (updatePlayer s.players seat
      (fun p => { p with eliminated := true })).map (·.seat)
      = s.players.map (·.seat) := map_updatePlayer _ _ _ _ (fun p => rfl)
  have hcards : (updatePlayer s.players seat
      (fun p => { p with eliminated := true })).map (·.card)
      = s.players.map (·.card) := map_updatePlayer _ _ _ _ (fun p => rfl)
  constructor
  · show (updatePlayer s.players seat _).map (·.seat) = _
    rw [hseats]
    exact h.seats_eq
  · show (s.available_cards ++ (updatePlayer s.players seat _).filterMap (·.card)).Perm _
    rw [filterMap_card_congr _ _ hcards]
    exact h.cards_perm
  · show s.pending_seats = _
    rw [h.pending_eq]
    exact (filter_none_map_seat_congr _ _ hseats hcards).symm
  · exact h.avail_sorted
  · intro t ht
    rcases List.mem_append.mp ht with h1 | h2
    · refine exists_elim_map (fun p => ?_) (fun p hp => ?_) (h.log_mem t h1)
      · by_cases hps : p.seat = seat <;> simp [hps]
      · by_cases hps : p.seat = seat <;> simp [hps, hp]
    · have ht2 : t = seat := by simpa using h2
      subst ht2
      have hplm := lookup_mem hl
      have hmem : (if pl.seat = t then ({ pl with eliminated := true } : Player) else pl)
          ∈ updatePlayer s.players t (fun p => { p with eliminated := true }) :=
        List.mem_map_of_mem _ hplm
      rw [if_pos (lookup_seat hl)] at hmem
      refine ⟨{ pl with eliminated := true }, hmem, ?_, rfl⟩
      exact @lookup_seat s.players t pl hl
  · rw [List.nodup_append]
    refine ⟨h.log_nodup, List.nodup_singleton seat, ?_⟩
    intro a ha hb
    have hab : a = seat := by simpa using hb
    subst hab
    obtain ⟨q, hq, hqs, hqe⟩ := h.log_mem a ha
    have hqpl : q = pl := seat_unique s.players a pl hnd hl q hq hqs
    rw [hqpl] at hqe
    rw [hqe] at he
    exact Bool.noConfusion he

theorem inv_apply_scores {s : GameSession} (h : Inv s) (oc : String) :
    Inv (apply_scores s oc) := by
  unfold apply_scores
  by_cases hoc : oc = "civilians"
  · rw [if_pos hoc]
    refine inv_transfer h rfl ?_ ?_ ?_ rfl rfl rfl
    · rw [List.map_map]
      refine List.map_congr_left fun p _ => ?_
      by_cases hr : p.role = "C" <;> simp [Function.comp, hr]
    · rw [List.map_map]
      refine List.map_congr_left fun p _ => ?_
      by_cases hr : p.role = "C" <;> simp [Function.comp, hr]
    · intro t hex
      refine exists_elim_map (fun p => ?_) (fun p hp => ?_) hex
      · by_cases hr : p.role = "C" <;> simp [hr]
      · by_cases hr : p.role = "C" <;> simp [hr, hp]
  · rw [if_neg hoc]
    refine inv_transfer h rfl ?_ ?_ ?_ rfl rfl rfl
    · rw [List.map_map]
      refine List.map_congr_left fun p _ => ?_
      by_cases h1 : p.role = "U" ∧ p.eliminated = false <;>
        by_cases h2 : p.role = "W" ∧ p.eliminated = false <;>
        simp [Function.comp, h1, h2]
    · rw [List.map_map]
      refine List.map_congr_left fun p _ => ?_
      by_cases h1 : p.role = "U" ∧ p.eliminated = false <;>
        by_cases h2 : p.role = "W" ∧ p.eliminated = false <;>
        simp [Function.comp, h1, h2]
    · intro t hex
      refine exists_elim_map (fun p => ?_) (fun p hp => ?_) hex
      · by_cases h1 : p.role = "U" ∧ p.eliminated = false
        · rw [if_pos h1]
        · rw [if_neg h1]
          by_cases h2 : p.role = "W" ∧ p.eliminated = false
          · rw [if_pos h2]
          · rw [if_neg h2]
      · by_cases h1 : p.role = "U" ∧ p.eliminated = false
        · rw [if_pos h1]
          exact hp
        · rw [if_neg h1]
          by_cases h2 : p.role = "W" ∧ p.eliminated = false
          · rw [if_pos h2]
            exact hp
          · rw [if_neg h2]
            exact hp

theorem inv_handle_elimination {s : GameSession} (h : Inv s) (seat : Nat) :
    Inv (handle_elimination s seat).2 := by
  unfold handle_elimination
  cases hl : lookup s.players seat with
  | none => exact h
  | some pl =>
    by_cases he : pl.eliminated
    · simp only [he, if_true]
      exact h
    · simp only [he, if_false, Bool.false_eq_true]
      unfold eliminate
      simp only [hl]
      have he' : pl.eliminated = false := by
        cases hval : pl.eliminated
        · rfl
        · rw [hval] at he
          exact absurd rfl he
      have hinv1 := inv_eliminate h hl he'
      cases ho : outcome { s with
          players := updatePlayer s.players seat (fun p => { p with eliminated := true }),
          elimination_log := s.elimination_log ++ [seat] } with
      | none => exact hinv1
      | some oc => exact inv_apply_scores hinv1 oc

theorem inv_rename {s : GameSession} (h : Inv s) (seat : Nat) (nm : String) :
    Inv (renameSeat s seat nm) := by
  unfold renameSeat
  refine inv_transfer h rfl ?_ ?_ ?_ rfl rfl rfl
  · exact map_updatePlayer _ _ _ _ (fun p => rfl)
  · exact map_updatePlayer _ _ _ _ (fun p => rfl)
  · intro t hex
    refine exists_elim_map (fun p => ?_) (fun p hp => ?_) hex
    · by_cases hps : p.seat = seat <;> simp [hps]
    · by_cases hps : p.seat = seat <;> simp [hps, hp]

theorem inv_name_set {s : GameSession} (h : Inv s) (nm : String) :
    Inv (set_current_player_name s nm) := by
  unfold set_current_player_name
  cases hc : current_name_seat s with
  | none => exact h
  | some seat =>
    refine inv_transfer h rfl ?_ ?_ ?_ rfl rfl rfl
    · exact map_updatePlayer _ _ _ _ (fun p => rfl)
    · exact map_updatePlayer _ _ _ _ (fun p => rfl)
    · intro t hex
      refine exists_elim_map (fun p => ?_) (fun p hp => ?_) hex
      · by_cases hps : p.seat = seat <;> simp [hps]
      · by_cases hps : p.seat = seat <;> simp [hps, hp]

theorem inv_name_skip {s : GameSession} (h : Inv s) :
    Inv (skip_current_player_name s) := by
  unfold skip_current_player_name
  cases hc : current_name_seat s with
  | none => exact h
  | some seat => exact inv_transfer h rfl rfl rfl (fun t hx => hx) rfl rfl rfl

theorem inv_step {s s' : GameSession} (h : Inv s) (hs : Step s s') : Inv s' := by
  cases hs with
  | roles civ und wht sh k r s1 hsh hsel => exact inv_select_roles h hsel
  | draw_ok u c s1 seat rest nm hpend hsel =>
    obtain ⟨hc, pl, hl, hs1⟩ := select_card_ok hpend hsel
    subst hs1
    exact inv_rename (inv_register h hpend hc) seat nm
  | draw_fail u c r s1 hne hsel =>
    rw [select_card_fail_eq hsel hne]
    exact h
  | draw_reverted u c seat rest pl p s1 hpend hc hlook hreg =>
    obtain ⟨pl2, hpl2, hnone2⟩ := h.head_lookup hpend
    have hpls : pl2 = pl := by
      rw [hlook] at hpl2
      injection hpl2 with hv
      exact hv.symm
    subst hpls
    rw [revert_register h.seats_nodup hpend hlook hnone2 h.avail_sorted hreg]
    exact h
  | eliminate_seat seat => exact inv_handle_elimination h seat
  | next_round sh k s1 hsh hres =>
    unfold reset_for_next_round at hres
    cases hd : s.role_distribution with
    | none =>
      rw [hd] at hres
      exact Option.noConfusion hres
    | some tri =>
      obtain ⟨c1, u1, w1⟩ := tri
      simp only [hd] at hres
      exact inv_assign_roles h hres
  | name_set nm => exact inv_name_set h nm
  | name_skip => exact inv_name_skip h

theorem inv_reachable {s : GameSession} (h : Reachable s) : Inv s := by
  induction h with
  | init n h3 h10 => exact inv_init n
  | step s s1 hr hs ih => exact inv_step ih hs

/-! ### Claim theorems -/

/-- C1: the outcome evaluation returns the civilians win exactly when no
non-eliminated Undercover or Mr. White seat remains; otherwise it returns
the infiltrators win exactly when the non-eliminated civilian count is zero
or at most the non-eliminated infiltrator count; otherwise it is undecided.
The civilians-win check is performed first, so it dominates when both
conditions hold. -/
theorem outcome_policy_spec (s : GameSession) :
    (outcome s = some "civilians" ↔ infiltrators_remaining s = 0) ∧
    (outcome s = some "infiltrators" ↔ infiltrators_remaining s ≠ 0 ∧
      (civilians_remaining s = 0 ∨ civilians_remaining s ≤ infiltrators_remaining s)) ∧
    (outcome s = none ↔ infiltrators_remaining s ≠ 0 ∧
      ¬(civilians_remaining s = 0 ∨ civilians_remaining s ≤ infiltrators_remaining s)) := by
  unfold outcome
  by_cases h1 : infiltrators_remaining s = 0
  · simp [h1]
  · by_cases h2 : civilians_remaining s = 0 ∨
        civilians_remaining s ≤ infiltrators_remaining s
    · simp [h1, h2]
    · simp [h1, h2]

/-- C2: on a decided outcome, `apply_scores` adds exactly 1 point to every
Civilian seat (eliminated or not) on a civilian win and nothing to anyone
else; on an infiltrator win it adds exactly 2 points to every non-eliminated
Undercover seat and 4 to every non-eliminated Mr. White seat, and nothing to
eliminated infiltrators or to Civilians; no other player field changes. -/
theorem apply_scores_spec (s : GameSession) (oc : String)
    (_hoc : outcome s = some oc) :
    apply_scores s oc = { s with players := s.players.map (fun p =>
      { p with score := p.score +
          (if oc = "civilians" then (if p.role = "C" then 1 else 0)
           else (if p.role = "U" ∧ p.eliminated = false then 2
                 else if p.role = "W" ∧ p.eliminated = false then 4 else 0)) }) } := by
  unfold apply_scores
  by_cases h : oc = "civilians"
  · subst h
    rw [if_pos rfl]
    refine congrArg (fun ps => { s with players := ps }) ?_
    refine List.map_congr_left fun p _ => ?_
    by_cases hr : p.role = "C" <;> simp [hr, ROLE_POINTS]
  · rw [if_neg h]
    refine congrArg (fun ps => { s with players := ps }) ?_
    refine List.map_congr_left fun p _ => ?_
    rw [if_neg h]
    by_cases h1 : p.role = "U" ∧ p.eliminated = false
    · simp [h1, ROLE_POINTS]
    · rw [if_neg h1, if_neg h1]
      by_cases h2 : p.role = "W" ∧ p.eliminated = false
      · simp [h1, h2, ROLE_POINTS]
      · simp [h1, h2]

/-- Witness for C2 at a concrete session with a decided outcome. -/
theorem apply_scores_spec_witness :
    outcome (initSession 3) = some "civilians" ∧
    apply_scores (initSession 3) "civilians"
      = { initSession 3 with players := (initSession 3).players.map (fun p =>
          { p with score := p.score +
              (if "civilians" = "civilians" then (if p.role = "C" then 1 else 0)
               else (if p.role = "U" ∧ p.eliminated = false then 2
                     else if p.role = "W" ∧ p.eliminated = false then 4 else 0)) }) } :=
  ⟨by decide, apply_scores_spec (initSession 3) "civilians" (by decide)⟩

/-- C3 (amended): the full behaviour of the `select_card` guards.  A draw
of a card not in the available pool is rejected with the card-taken alert
(checked before anything else once the queue is non-empty); a draw while
the head seat is already bound to a different (truthy) Telegram user is
rejected with the not-your-turn alert; otherwise — in particular whenever
the head seat has no bound user yet, regardless of which seat the
requesting user is bound to — the draw succeeds, records the card and the
user on the head seat, pops that seat and removes the card value.  Every
rejection leaves the session unchanged. -/
theorem select_card_behaviour (s : GameSession) (u c : Nat) :
    (s.pending_seats = [] → select_card s u c = some (.allCardsDrawn, s)) ∧
    (∀ seat rest pl, s.pending_seats = seat :: rest →
      lookup s.players seat = some pl →
      (c ∉ s.available_cards → select_card s u c = some (.cardAlreadyTaken, s)) ∧
      (c ∈ s.available_cards → optTruthy pl.telegram_id = true →
        pl.telegram_id ≠ some u →
        select_card s u c = some (.notYourTurn, s)) ∧
      (c ∈ s.available_cards →
        (optTruthy pl.telegram_id = false ∨ pl.telegram_id = some u) →
        select_card s u c = some (.ok, { s with
          pending_seats := rest,
          players := updatePlayer s.players seat
            (fun p => { p with card := some c, telegram_id := some u }),
          available_cards := s.available_cards.erase c }))) := by
  constructor
  · intro hp
    unfold select_card
    simp only [hp]
  · intro seat rest pl hp hl
    refine ⟨?_, ?_, ?_⟩
    · intro hc
      unfold select_card
      simp only [hp]
      rw [if_pos hc]
    · intro hc ht hne
      unfold select_card
      simp only [hp]
      rw [if_neg (not_not_intro hc)]
      simp only [hl]
      rw [if_pos ⟨ht, hne⟩]
    · intro hc ht
      unfold select_card
      simp only [hp]
      rw [if_neg (not_not_intro hc)]
      simp only [hl]
      have hnot : ¬(optTruthy pl.telegram_id = true ∧ pl.telegram_id ≠ some u) := by
        rcases ht with h | h
        · intro hcon
          rw [h] at hcon
          exact Bool.noConfusion hcon.1
        · intro hcon
          exact hcon.2 h
      rw [if_neg hnot, register_eq hp hl hc]

/-- Witness for C3 (amended), exercising each guard at concrete inputs:
an empty queue, an unavailable card, a head seat bound to a different
user, and a successful draw on an unbound head seat. -/
theorem select_card_behaviour_witness :
    select_card { initSession 3 with pending_seats := [] } 7 1
      = some (.allCardsDrawn, { initSession 3 with pending_seats := [] }) ∧
    select_card (initSession 3) 7 5 = some (.cardAlreadyTaken, initSession 3) ∧
    select_card { initSession 3 with
        players := [{ mkPlayer 1 with telegram_id := some 9 }, mkPlayer 2, mkPlayer 3] } 7 1
      = some (.notYourTurn, { initSession 3 with
        players := [{ mkPlayer 1 with telegram_id := some 9 }, mkPlayer 2, mkPlayer 3] }) ∧
    select_card (initSession 3) 7 1 = some (.ok, { initSession 3 with
      pending_seats := [2, 3],
      players := updatePlayer (initSession 3).players 1
        (fun p => { p with card := some 1, telegram_id := some 7 }),
      available_cards := (initSession 3).available_cards.erase 1 }) := by
  refine ⟨?_, ?_, ?_, ?_⟩
  · exact (select_card_behaviour { initSession 3 with pending_seats := [] } 7 1).1 rfl
  · exact (((select_card_behaviour (initSession 3) 7 5).2 1 [2, 3] (mkPlayer 1)
      (by decide) (by decide)).1 (by decide))
  · exact (((select_card_behaviour { initSession 3 with
      players := [{ mkPlayer 1 with telegram_id := some 9 }, mkPlayer 2, mkPlayer 3] } 7 1).2
      1 [2, 3] { mkPlayer 1 with telegram_id := some 9 }
      (by decide) (by decide)).2.1 (by decide) (by decide) (by decide))
  · exact (((select_card_behaviour (initSession 3) 7 1).2 1 [2, 3] (mkPlayer 1)
      (by decide) (by decide)).2.2 (by decide) (Or.inl (by decide)))

/-- The session after `select_roles(2, 1, 0)` from a fresh three-player
session with identity shuffle and word pair 0: used by the C3
counterexample. -/
def c3state1 : GameSession :=
  { num_players := 3,
    players := [
      { seat := 1, name := "Player 1", role := "C", word := "DOG",
        eliminated := false, card := none, score := 0, telegram_id := none },
      { seat := 2, name := "Player 2", role := "C", word := "DOG",
        eliminated := false, card := none, score := 0, telegram_id := none },
      { seat := 3, name := "Player 3", role := "U", word := "WOLF",
        eliminated := false, card := none, score := 0, telegram_id := none }],
    pending_seats := [1, 2, 3],
    available_cards := [1, 2, 3],
    elimination_log := [],
    role_distribution := some (2, 1, 0),
    word_pair := some ("DOG", "WOLF"),
    name_order := [1, 2, 3],
    next_name_index := 0 }

/-- `c3state1` after Telegram user 7 draws card 1 for seat 1: seat 1 is
now bound to user 7, and the head of the pending queue is the still
unbound seat 2. -/
def c3session : GameSession :=
  { c3state1 with
    players := [
      { seat := 1, name := "Player 1", role := "C", word := "DOG",
        eliminated := false, card := some 1, score := 0, telegram_id := some 7 },
      { seat := 2, name := "Player 2", role := "C", word := "DOG",
        eliminated := false, card := none, score := 0, telegram_id := none },
      { seat := 3, name := "Player 3", role := "U", word := "WOLF",
        eliminated := false, card := none, score := 0, telegram_id := none }],
    pending_seats := [2, 3],
    available_cards := [2, 3] }

theorem c3session_reachable : Reachable c3session := by
  have h0 : Reachable (initSession 3) := .init 3 (by norm_num) (by norm_num)
  have h1 : Step (initSession 3) c3state1 :=
    .roles (initSession 3) 2 1 0 [1, 2, 3] 0 .assigned c3state1 (by decide) (by decide)
  have h2 : Step c3state1 (renameSeat c3session 1 "Player 1") :=
    .draw_ok c3state1 7 1 c3session 1 [2, 3] "Player 1" (by decide) (by decide)
  have h3 : renameSeat c3session 1 "Player 1" = c3session := by decide
  rw [h3] at h2
  exact .step c3state1 c3session (.step (initSession 3) c3state1 h0 h1) h2

/-- C3 counterexample: in the reachable session `c3session`, Telegram user
7 is the user bound to seat 1, which is not the head of the pending queue
(seat 2 is), yet user 7's draw of card 2 succeeds — it is accepted with the
`ok` reply and recorded on seat 2 — instead of failing with the
not-your-turn rejection, refuting the claim that a draw attempted by a
non-head seat always fails with NotYourTurn with the state unchanged. -/
theorem select_card_not_turn_counterexample :
    Reachable c3session ∧
    (lookup c3session.players 1).map (·.telegram_id) = some (some 7) ∧
    c3session.pending_seats = [2, 3] ∧
    (select_card c3session 7 2).map Prod.fst = some CardReply.ok ∧
    (select_card c3session 7 2).map (fun r => r.2.pending_seats) = some [3] ∧
    (select_card c3session 7 2).map (fun r => r.2.players.map (·.card))
      = some [some 1, some 2, none] :=
  ⟨c3session_reachable, by decide, by decide, by decide, by decide, by decide⟩

/-- Closed form of a completed assignment loop: every player whose seat
lies in the consumed segment of the shuffled seat list receives the role
and word, everyone else is untouched, and the index advances by the
iteration count. -/
theorem assignLoop_eq (sh : List Nat) (role word : String) :
    ∀ (n : Nat) (ps : List Player) (i : Nat), i + n ≤ sh.length →
    assignLoop ps sh i n role word
      = some (ps.map (fun p => if p.seat ∈ (sh.drop i).take n
          then setRoleWord role word p else p), i + n) := by
  intro n
  induction n with
  | zero =>
    intro ps i _
    unfold assignLoop
    simp
  | succ n ih =>
    intro ps i h
    unfold assignLoop
    have hi : i < sh.length := by omega
    rw [List.get?_eq_get hi]
    show assignLoop (updatePlayer ps (sh.get ⟨i, hi⟩) (setRoleWord role word))
      sh (i + 1) n role word = _
    rw [ih (updatePlayer ps (sh.get ⟨i, hi⟩) (setRoleWord role word)) (i + 1) (by omega)]
    refine congrArg some (Prod.ext ?_ (by omega))
    show (updatePlayer ps (sh.get ⟨i, hi⟩) (setRoleWord role word)).map _ = _
    unfold updatePlayer
    rw [List.map_map]
    refine List.map_congr_left fun p _ => ?_
    have hseg : (sh.drop i).take (n + 1) = sh[i] :: ((sh.drop (i + 1)).take n) := by
      rw [List.drop_eq_getElem_cons hi, List.take_succ_cons]
    rw [hseg]
    by_cases hps : p.seat = sh[i]
    · by_cases hmem : p.seat ∈ (sh.drop (i + 1)).take n
      · simp [Function.comp, hps, hmem, setRoleWord]
      · simp [Function.comp, hps, hmem, setRoleWord]
    · by_cases hmem : p.seat ∈ (sh.drop (i + 1)).take n
      · simp [Function.comp, hps, hmem]
      · simp [Function.comp, hps, hmem]

theorem countP_seat_mem (ps : List Player) (S : List Nat)
    (hnd : (ps.map (·.seat)).Nodup) (hS : S.Nodup)
    (hsub : ∀ x ∈ S, x ∈ ps.map (·.seat)) :
    ps.countP (fun p => decide (p.seat ∈ S)) = S.length := by
  have h1 : (ps.map (·.seat)).countP (fun x => decide (x ∈ S))
      = ps.countP (fun p => decide (p.seat ∈ S)) := List.countP_map _ _ _
  rw [← h1, List.countP_eq_length_filter]
  have hperm : ((ps.map (·.seat)).filter (fun x => decide (x ∈ S))).Perm S := by
    rw [List.perm_ext_iff_of_nodup (hnd.filter _) hS]
    intro a
    simp only [List.mem_filter, decide_eq_true_eq]
    constructor
    · rintro ⟨_, ha⟩
      exact ha
    · intro ha
      exact ⟨hsub a ha, ha⟩
  exact hperm.length_eq

theorem take_drop_disjoint {l : List Nat} (hnd : l.Nodup) (m : Nat) :
    ∀ x ∈ l.take m, x ∉ l.drop m := by
  have hnd2 : (l.take m ++ l.drop m).Nodup := by
    rw [List.take_append_drop m l]
    exact hnd
  have h := (List.nodup_append.mp hnd2).2.2
  exact fun x hx hx2 => h hx hx2

/-- The net effect of the three assignment passes of `assign_roles` on one
player (pass order C, then U, then W, later passes overwriting). -/
def assignAll (sh : List Nat) (iC iU iW : Nat) (cw uw : String) (p : Player) : Player :=
  (fun q => if q.seat ∈ (sh.drop (iC + iU)).take iW then setRoleWord "W" "" q else q)
    ((fun q => if q.seat ∈ (sh.drop iC).take iU then setRoleWord "U" uw q else q)
      ((fun q => if q.seat ∈ sh.take iC then setRoleWord "C" cw q else q)
        (clearPlayer p)))

theorem assignAll_eval (sh : List Nat) (iC iU iW : Nat) (cw uw : String)
    (p : Player) :
    (assignAll sh iC iU iW cw uw p).role
      = (if p.seat ∈ (sh.drop (iC + iU)).take iW then "W"
         else if p.seat ∈ (sh.drop iC).take iU then "U"
         else if p.seat ∈ sh.take iC then "C" else "") ∧
    (assignAll sh iC iU iW cw uw p).word
      = (if p.seat ∈ (sh.drop (iC + iU)).take iW then ""
         else if p.seat ∈ (sh.drop iC).take iU then uw
         else if p.seat ∈ sh.take iC then cw else "") := by
  by_cases h1 : p.seat ∈ sh.take iC <;>
    by_cases h2 : p.seat ∈ (sh.drop iC).take iU <;>
    by_cases h3 : p.seat ∈ (sh.drop (iC + iU)).take iW <;>
    simp [assignAll, h1, h2, h3, setRoleWord, clearPlayer]

/-- C4 (amended): `select_roles` rejects a triple exactly when it does not
sum to the player count — non-negativity is not checked — leaving the
session unchanged; for a triple of non-negative counts summing to N and a
shuffle that permutes the seats, the assignment succeeds and afterwards
exactly `civilians` seats hold role Civilian with the drawn civilian word,
exactly `undercovers` hold role Undercover with the drawn undercover word,
and exactly `mrWhites` hold role MrWhite with the empty word. -/
theorem select_roles_spec (s : GameSession) (civ und wht : Int) (sh : List Nat)
    (k : Nat) (hseats : seatsOf s = List.range' 1 s.num_players) :
    (civ + und + wht ≠ (s.num_players : Int) →
      select_roles s civ und wht sh k = some (.distributionMismatch, s)) ∧
    (sh.Perm (seatsOf s) → 0 ≤ civ → 0 ≤ und → 0 ≤ wht →
      civ + und + wht = (s.num_players : Int) →
      ∃ s1, select_roles s civ und wht sh k = some (.assigned, s1) ∧
        s1.players.countP (fun p => decide (p.role = "C")) = civ.toNat ∧
        s1.players.countP (fun p => decide (p.role = "U")) = und.toNat ∧
        s1.players.countP (fun p => decide (p.role = "W")) = wht.toNat ∧
        (∀ p ∈ s1.players, p.role = "C" → p.word = (draw_word_pair WORD_PAIRS k).1) ∧
        (∀ p ∈ s1.players, p.role = "U" → p.word = (draw_word_pair WORD_PAIRS k).2) ∧
        (∀ p ∈ s1.players, p.role = "W" → p.word = "")) := by
  constructor
  · intro hne
    unfold select_roles
    rw [if_pos hne]
  · intro hsh hc hu hw hsum
    have hndseats : (s.players.map (·.seat)).Nodup := by
      show (seatsOf s).Nodup
      rw [hseats]
      exact List.nodup_range' 1 s.num_players
    have hndsh : sh.Nodup := hsh.nodup_iff.mpr hndseats
    have hlen : sh.length = s.num_players := by
      rw [hsh.length_eq]
      show (seatsOf s).length = _
      rw [hseats, List.length_range']
    have hsum2 : civ.toNat + und.toNat + wht.toNat = s.num_players := by omega
    have hrun : assign_roles s civ und wht sh k = some { s with
        role_distribution := some (civ, und, wht),
        elimination_log := [],
        pending_seats := seatsOf s,
        available_cards := seatsOf s,
        players := (((s.players.map clearPlayer).map
            (fun q => if q.seat ∈ sh.take civ.toNat
              then setRoleWord "C" (draw_word_pair WORD_PAIRS k).1 q else q)).map
            (fun q => if q.seat ∈ (sh.drop civ.toNat).take und.toNat
              then setRoleWord "U" (draw_word_pair WORD_PAIRS k).2 q else q)).map
            (fun q => if q.seat ∈ (sh.drop (civ.toNat + und.toNat)).take wht.toNat
              then setRoleWord "W" "" q else q),
        word_pair := some (draw_word_pair WORD_PAIRS k) } := by
      unfold assign_roles assign_roles_with
      simp only [assignLoop_eq sh "C" (draw_word_pair WORD_PAIRS k).1 civ.toNat
        (s.players.map clearPlayer) 0 (by omega)]
      simp only [assignLoop_eq sh "U" (draw_word_pair WORD_PAIRS k).2 und.toNat
        ((s.players.map clearPlayer).map
          (fun q => if q.seat ∈ (sh.drop 0).take civ.toNat
            then setRoleWord "C" (draw_word_pair WORD_PAIRS k).1 q else q))
        (0 + civ.toNat) (by omega)]
      simp only [assignLoop_eq sh "W" "" wht.toNat
        (((s.players.map clearPlayer).map
          (fun q => if q.seat ∈ (sh.drop 0).take civ.toNat
            then setRoleWord "C" (draw_word_pair WORD_PAIRS k).1 q else q)).map
          (fun q => if q.seat ∈ (sh.drop (0 + civ.toNat)).take und.toNat
            then setRoleWord "U" (draw_word_pair WORD_PAIRS k).2 q else q))
        (0 + civ.toNat + und.toNat) (by omega)]
      simp [Nat.zero_add, List.drop_zero]
    have hplayers : (((s.players.map clearPlayer).map
          (fun q => if q.seat ∈ sh.take civ.toNat
            then setRoleWord "C" (draw_word_pair WORD_PAIRS k).1 q else q)).map
          (fun q => if q.seat ∈ (sh.drop civ.toNat).take und.toNat
            then setRoleWord "U" (draw_word_pair WORD_PAIRS k).2 q else q)).map
          (fun q => if q.seat ∈ (sh.drop (civ.toNat + und.toNat)).take wht.toNat
            then setRoleWord "W" "" q else q)
        = s.players.map (assignAll sh civ.toNat und.toNat wht.toNat
            (draw_word_pair WORD_PAIRS k).1 (draw_word_pair WORD_PAIRS k).2) := by
      rw [List.map_map, List.map_map, List.map_map]
      rfl
    have hsubC : ∀ x ∈ sh.take civ.toNat, x ∈ s.players.map (·.seat) :=
      fun x hx => hsh.subset ((List.take_sublist _ _).subset hx)
    have hsubU : ∀ x ∈ (sh.drop civ.toNat).take und.toNat, x ∈ s.players.map (·.seat) :=
      fun x hx => hsh.subset ((List.drop_sublist _ _).subset
        ((List.take_sublist _ _).subset hx))
    have hsubW : ∀ x ∈ (sh.drop (civ.toNat + und.toNat)).take wht.toNat,
        x ∈ s.players.map (·.seat) :=
      fun x hx => hsh.subset ((List.drop_sublist _ _).subset
        ((List.take_sublist _ _).subset hx))
    have hndC : (sh.take civ.toNat).Nodup := hndsh.sublist (List.take_sublist _ _)
    have hndDrop : (sh.drop civ.toNat).Nodup := hndsh.sublist (List.drop_sublist _ _)
    have hndU : ((sh.drop civ.toNat).take und.toNat).Nodup :=
      hndDrop.sublist (List.take_sublist _ _)
    have hndW : ((sh.drop (civ.toNat + und.toNat)).take wht.toNat).Nodup :=
      (hndsh.sublist (List.drop_sublist _ _)).sublist (List.take_sublist _ _)
    have hdCU : ∀ x ∈ (sh.drop civ.toNat).take und.toNat, x ∉ sh.take civ.toNat :=
      fun x hx hx1 => take_drop_disjoint hndsh civ.toNat x hx1
        ((List.take_sublist _ _).subset hx)
    have hdCW : ∀ x ∈ (sh.drop (civ.toNat + und.toNat)).take wht.toNat,
        x ∉ sh.take civ.toNat := by
      intro x hx hx1
      have hx2 : x ∈ sh.drop (civ.toNat + und.toNat) := (List.take_sublist _ _).subset hx
      have hx3 : x ∈ sh.drop civ.toNat :=
        (List.drop_sublist_drop_left sh (by omega)).subset hx2
      exact take_drop_disjoint hndsh civ.toNat x hx1 hx3
    have hdUW : ∀ x ∈ (sh.drop (civ.toNat + und.toNat)).take wht.toNat,
        x ∉ (sh.drop civ.toNat).take und.toNat := by
      intro x hx hx1
      have hx2 : x ∈ sh.drop (civ.toNat + und.toNat) := (List.take_sublist _ _).subset hx
      have hx3 : x ∈ (sh.drop civ.toNat).drop und.toNat := by
        rw [List.drop_drop]
        exact hx2
      exact take_drop_disjoint hndDrop und.toNat x hx1 hx3
    have hlenC : (sh.take civ.toNat).length = civ.toNat := by
      rw [List.length_take]
      omega
    have hlenU : ((sh.drop civ.toNat).take und.toNat).length = und.toNat := by
      rw [List.length_take, List.length_drop]
      omega
    have hlenW : ((sh.drop (civ.toNat + und.toNat)).take wht.toNat).length
        = wht.toNat := by
      rw [List.length_take, List.length_drop]
      omega
    have hAe := fun p => assignAll_eval sh civ.toNat und.toNat wht.toNat
      (draw_word_pair WORD_PAIRS k).1 (draw_word_pair WORD_PAIRS k).2 p
    refine ⟨{ s with
        role_distribution := some (civ, und, wht),
        elimination_log := [],
        pending_seats := seatsOf s,
        available_cards := seatsOf s,
        players := (((s.players.map clearPlayer).map
            (fun q => if q.seat ∈ sh.take civ.toNat
              then setRoleWord "C" (draw_word_pair WORD_PAIRS k).1 q else q)).map
            (fun q => if q.seat ∈ (sh.drop civ.toNat).take und.toNat
              then setRoleWord "U" (draw_word_pair WORD_PAIRS k).2 q else q)).map
            (fun q => if q.seat ∈ (sh.drop (civ.toNat + und.toNat)).take wht.toNat
              then setRoleWord "W" "" q else q),
        word_pair := some (draw_word_pair WORD_PAIRS k) },
      ?_, ?_, ?_, ?_, ?_, ?_, ?_⟩
    · show select_roles s civ und wht sh k = _
      unfold select_roles
      rw [if_neg (not_not_intro hsum)]
      rw [hrun]
    · show ((((s.players.map clearPlayer).map _).map _).map _).countP _ = _
      rw [hplayers, List.countP_map]
      rw [List.countP_congr (q := fun p => decide (p.seat ∈ sh.take civ.toNat)) ?_]
      · rw [countP_seat_mem s.players _ hndseats hndC hsubC, hlenC]
      · intro p _
        simp only [Function.comp, decide_eq_true_eq]
        rw [(hAe p).1]
        constructor
        · intro hrole
          by_cases h3 : p.seat ∈ (sh.drop (civ.toNat + und.toNat)).take wht.toNat
          · rw [if_pos h3] at hrole
            exact absurd hrole (by decide)
          · rw [if_neg h3] at hrole
            by_cases h2 : p.seat ∈ (sh.drop civ.toNat).take und.toNat
            · rw [if_pos h2] at hrole
              exact absurd hrole (by decide)
            · rw [if_neg h2] at hrole
              by_cases h1 : p.seat ∈ sh.take civ.toNat
              · exact h1
              · rw [if_neg h1] at hrole
                exact absurd hrole (by decide)
        · intro h1
          rw [if_neg (fun hx => hdCW p.seat hx h1),
            if_neg (fun hx => hdCU p.seat hx h1), if_pos h1]
    · show ((((s.players.map clearPlayer).map _).map _).map _).countP _ = _
      rw [hplayers, List.countP_map]
      rw [List.countP_congr
        (q := fun p => decide (p.seat ∈ (sh.drop civ.toNat).take und.toNat)) ?_]
      · rw [countP_seat_mem s.players _ hndseats hndU hsubU, hlenU]
      · intro p _
        simp only [Function.comp, decide_eq_true_eq]
        rw [(hAe p).1]
        constructor
        · intro hrole
          by_cases h3 : p.seat ∈ (sh.drop (civ.toNat + und.toNat)).take wht.toNat
          · rw [if_pos h3] at hrole
            exact absurd hrole (by decide)
          · rw [if_neg h3] at hrole
            by_cases h2 : p.seat ∈ (sh.drop civ.toNat).take und.toNat
            · exact h2
            · rw [if_neg h2] at hrole
              by_cases h1 : p.seat ∈ sh.take civ.toNat
              · rw [if_pos h1] at hrole
                exact absurd hrole (by decide)
              · rw [if_neg h1] at hrole
                exact absurd hrole (by decide)
        · intro h2
          rw [if_neg (fun hx => hdUW p.seat hx h2), if_pos h2]
    · show ((((s.players.map clearPlayer).map _).map _).map _).countP _ = _
      rw [hplayers, List.countP_map]
      rw [List.countP_congr
        (q := fun p => decide
          (p.seat ∈ (sh.drop (civ.toNat + und.toNat)).take wht.toNat)) ?_]
      · rw [countP_seat_mem s.players _ hndseats hndW hsubW, hlenW]
      · intro p _
        simp only [Function.comp, decide_eq_true_eq]
        rw [(hAe p).1]
        constructor
        · intro hrole
          by_cases h3 : p.seat ∈ (sh.drop (civ.toNat + und.toNat)).take wht.toNat
          · exact h3
          · rw [if_neg h3] at hrole
            by_cases h2 : p.seat ∈ (sh.drop civ.toNat).take und.toNat
            · rw [if_pos h2] at hrole
              exact absurd hrole (by decide)
            · rw [if_neg h2] at hrole
              by_cases h1 : p.seat ∈ sh.take civ.toNat
              · rw [if_pos h1] at hrole
                exact absurd hrole (by decide)
              · rw [if_neg h1] at hrole
                exact absurd hrole (by decide)
        · intro h3
          rw [if_pos h3]
    · show ∀ p ∈ (((s.players.map clearPlayer).map _).map _).map _, _
      rw [hplayers]
      intro p hp hrole
      obtain ⟨q, hq, rfl⟩ := List.mem_map.mp hp
      rw [(hAe q).1] at hrole
      rw [(hAe q).2]
      by_cases h3 : q.seat ∈ (sh.drop (civ.toNat + und.toNat)).take wht.toNat
      · rw [if_pos h3] at hrole
        exact absurd hrole (by decide)
      · rw [if_neg h3] at hrole
        rw [if_neg h3]
        by_cases h2 : q.seat ∈ (sh.drop civ.toNat).take und.toNat
        · rw [if_pos h2] at hrole
          exact absurd hrole (by decide)
        · rw [if_neg h2] at hrole
          rw [if_neg h2]
          by_cases h1 : q.seat ∈ sh.take civ.toNat
          · rw [if_pos h1]
          · rw [if_neg h1] at hrole
            exact absurd hrole (by decide)
    · show ∀ p ∈ (((s.players.map clearPlayer).map _).map _).map _, _
      rw [hplayers]
      intro p hp hrole
      obtain ⟨q, hq, rfl⟩ := List.mem_map.mp hp
      rw [(hAe q).1] at hrole
      rw [(hAe q).2]
      by_cases h3 : q.seat ∈ (sh.drop (civ.toNat + und.toNat)).take wht.toNat
      · rw [if_pos h3] at hrole
        exact absurd hrole (by decide)
      · rw [if_neg h3] at hrole
        rw [if_neg h3]
        by_cases h2 : q.seat ∈ (sh.drop civ.toNat).take und.toNat
        · rw [if_pos h2]
        · rw [if_neg h2] at hrole
          by_cases h1 : q.seat ∈ sh.take civ.toNat
          · rw [if_pos h1] at hrole
            exact absurd hrole (by decide)
          · rw [if_neg h1] at hrole
            exact absurd hrole (by decide)
    · show ∀ p ∈ (((s.players.map clearPlayer).map _).map _).map _, _
      rw [hplayers]
      intro p hp hrole
      obtain ⟨q, hq, rfl⟩ := List.mem_map.mp hp
      rw [(hAe q).1] at hrole
      rw [(hAe q).2]
      by_cases h3 : q.seat ∈ (sh.drop (civ.toNat + und.toNat)).take wht.toNat
      · rw [if_pos h3]
      · rw [if_neg h3] at hrole
        by_cases h2 : q.seat ∈ (sh.drop civ.toNat).take und.toNat
        · rw [if_pos h2] at hrole
          exact absurd hrole (by decide)
        · rw [if_neg h2] at hrole
          by_cases h1 : q.seat ∈ sh.take civ.toNat
          · rw [if_pos h1] at hrole
            exact absurd hrole (by decide)
          · rw [if_neg h1] at hrole
            exact absurd hrole (by decide)

/-- C4 counterexample: the triple (-1, 2, 3) sums to the player count 4
but has a negative entry.  The claim requires the engine to fail with
InvalidDistribution; instead the only validation (the sum check) accepts
it and the role assignment then aborts with an IndexError (modelled as
`none`) — there is no InvalidDistribution rejection and no unchanged
session. -/
theorem select_roles_negative_counterexample :
    ((-1 : Int) + 2 + 3 = ((initSession 4).num_players : Int)) ∧
    ¬(0 ≤ (-1 : Int)) ∧
    select_roles (initSession 4) (-1) 2 3 [1, 2, 3, 4] 0 = none := by
  refine ⟨by decide, by decide, by decide⟩

/-- Witness for C4 (amended): a mismatching triple is rejected, and a
valid triple (2, 1, 1) for four players is assigned with the stated role
counts and word attachments. -/
theorem select_roles_spec_witness :
    (select_roles (initSession 4) 1 1 1 [1, 2, 3, 4] 0
      = some (.distributionMismatch, initSession 4)) ∧
    (∃ s1, select_roles (initSession 4) 2 1 1 [1, 2, 3, 4] 0
        = some (.assigned, s1) ∧
      s1.players.countP (fun p => decide (p.role = "C")) = (2 : Int).toNat ∧
      s1.players.countP (fun p => decide (p.role = "U")) = (1 : Int).toNat ∧
      s1.players.countP (fun p => decide (p.role = "W")) = (1 : Int).toNat ∧
      (∀ p ∈ s1.players, p.role = "C" → p.word = (draw_word_pair WORD_PAIRS 0).1) ∧
      (∀ p ∈ s1.players, p.role = "U" → p.word = (draw_word_pair WORD_PAIRS 0).2) ∧
      (∀ p ∈ s1.players, p.role = "W" → p.word = "")) :=
  ⟨(select_roles_spec (initSession 4) 1 1 1 [1, 2, 3, 4] 0 (by decide)).1 (by decide),
   (select_roles_spec (initSession 4) 2 1 1 [1, 2, 3, 4] 0 (by decide)).2
     (by decide) (by decide) (by decide) (by decide) (by decide)⟩

theorem filterMap_card_length (ps : List Player)
    (hall : ∀ p ∈ ps, p.card ≠ none) :
    (ps.filterMap (·.card)).length = ps.length := by
  induction ps with
  | nil => rfl
  | cons a ps ih =>
    cases hac : a.card with
    | none => exact absurd hac (hall a (List.mem_cons_self _ _))
    | some c =>
      simp [List.filterMap_cons, hac,
        ih (fun p hp => hall p (List.mem_cons_of_mem _ hp))]

/-- C5: at every reachable state, the available cards together with the
cards recorded on players form (up to order) exactly 1..N with no value in
both, and the pending queue lists exactly the card-less seats; once the
queue is empty the pool is empty and the drawn values are exactly 1..N
and pairwise distinct, giving a strict speaking order by ascending card
value. -/
theorem card_draw_invariant (s : GameSession) (h : Reachable s) :
    (s.available_cards ++ drawnCards s).Perm (List.range' 1 s.num_players) ∧
    (∀ c, ¬(c ∈ s.available_cards ∧ c ∈ drawnCards s)) ∧
    s.pending_seats
      = (s.players.filter (fun p => decide (p.card = none))).map (·.seat) ∧
    (s.pending_seats = [] → s.available_cards = [] ∧
      (drawnCards s).Perm (List.range' 1 s.num_players) ∧ (drawnCards s).Nodup) := by
  have hi := inv_reachable h
  refine ⟨hi.cards_perm, ?_, hi.pending_eq, ?_⟩
  · intro c hc
    have hnd := hi.cards_nodup
    rw [List.nodup_append] at hnd
    exact hnd.2.2 hc.1 hc.2
  · intro hp
    have hfil : s.players.filter (fun p => decide (p.card = none)) = [] := by
      have hpe := hi.pending_eq
      rw [hp] at hpe
      exact List.map_eq_nil_iff.mp hpe.symm
    have hall : ∀ p ∈ s.players, p.card ≠ none := by
      intro p hp2 hc
      have hmem : p ∈ s.players.filter (fun p => decide (p.card = none)) :=
        List.mem_filter.mpr ⟨hp2, by simp [hc]⟩
      rw [hfil] at hmem
      simp at hmem
    have hlendrawn : (drawnCards s).length = s.players.length :=
      filterMap_card_length s.players hall
    have hn : s.players.length = s.num_players := by
      have hleq := congrArg List.length hi.seats_eq
      simpa [seatsOf] using hleq
    have hlen2 := hi.cards_perm.length_eq
    simp only [List.length_append, List.length_range'] at hlen2
    have havail : s.available_cards = [] := by
      have hz : s.available_cards.length = 0 := by omega
      exact List.eq_nil_of_length_eq_zero hz
    have hdp : (drawnCards s).Perm (List.range' 1 s.num_players) := by
      have hcp := hi.cards_perm
      rw [havail] at hcp
      simpa using hcp
    exact ⟨havail, hdp, hi.drawn_nodup⟩

/-- Witness for C5 at the freshly created three-player session. -/
theorem card_draw_invariant_witness :
    ((initSession 3).available_cards ++ drawnCards (initSession 3)).Perm
      (List.range' 1 (initSession 3).num_players) ∧
    (∀ c, ¬(c ∈ (initSession 3).available_cards ∧ c ∈ drawnCards (initSession 3))) ∧
    (initSession 3).pending_seats
      = ((initSession 3).players.filter (fun p => decide (p.card = none))).map (·.seat) ∧
    ((initSession 3).pending_seats = [] → (initSession 3).available_cards = [] ∧
      (drawnCards (initSession 3)).Perm (List.range' 1 (initSession 3).num_players) ∧
      (drawnCards (initSession 3)).Nodup) :=
  card_draw_invariant (initSession 3) (.init 3 (by norm_num) (by norm_num))

/-- C10: the available-cards list is sorted in strictly ascending order at
every reachable state. -/
theorem available_cards_sorted (s : GameSession) (h : Reachable s) :
    s.available_cards.Sorted (· < ·) :=
  sorted_lt_of_le_nodup (inv_reachable h).avail_sorted (inv_reachable h).avail_nodup

/-- Witness for C10 at the freshly created three-player session. -/
theorem available_cards_sorted_witness :
    (initSession 3).available_cards.Sorted (· < ·) :=
  available_cards_sorted (initSession 3) (.init 3 (by norm_num) (by norm_num))

/-- C6: in any reachable session in the card-draw phase with a non-empty
pending queue, registering a card draw and then reverting it with the
returned player and the prior user binding restores the session exactly:
the seat is back at the head of the queue, the card value is back in its
sorted position in the pool, and the player's card is unset. -/
theorem draw_then_revert_roundtrip (s : GameSession) (h : Reachable s)
    (seat : Nat) (rest : List Nat) (c u : Nat) (pl p : Player) (s1 : GameSession)
    (hpend : s.pending_seats = seat :: rest)
    (hlook : lookup s.players seat = some pl)
    (hreg : register_card_choice s c u = some (p, s1)) :
    revert_card_choice s1 p pl.telegram_id = s := by
  have hi := inv_reachable h
  obtain ⟨pl2, hpl2, hnone2⟩ := hi.head_lookup hpend
  have hpls : pl2 = pl := by
    rw [hlook] at hpl2
    injection hpl2 with hv
    exact hv.symm
  subst hpls
  exact revert_register hi.seats_nodup hpend hlook hnone2 hi.avail_sorted hreg

/-- Witness for C6: drawing card 2 as user 9 on a fresh three-player
session and reverting restores the initial session exactly. -/
theorem draw_then_revert_witness :
    revert_card_choice
      { initSession 3 with
        pending_seats := [2, 3],
        players := updatePlayer (initSession 3).players 1
          (fun q => { q with card := some 2, telegram_id := some 9 }),
        available_cards := (initSession 3).available_cards.erase 2 }
      { mkPlayer 1 with card := some 2, telegram_id := some 9 }
      (mkPlayer 1).telegram_id
    = initSession 3 :=
  draw_then_revert_roundtrip (initSession 3) (.init 3 (by norm_num) (by norm_num))
    1 [2, 3] 2 9 (mkPlayer 1)
    { mkPlayer 1 with card := some 2, telegram_id := some 9 }
    { initSession 3 with
      pending_seats := [2, 3],
      players := updatePlayer (initSession 3).players 1
        (fun q => { q with card := some 2, telegram_id := some 9 }),
      available_cards := (initSession 3).available_cards.erase 2 }
    rfl (by decide) (by decide)

/-- Field-level effect of a completed `assign_roles`: names, scores, seats
and Telegram bindings are untouched, eliminated flags and cards are reset,
the log is cleared, pending and available are reset to the seat list, and
the distribution and a freshly drawn word pair are stored. -/
theorem assign_roles_fields {s : GameSession} {c u w : Int} {sh : List Nat}
    {k : Nat} {s1 : GameSession} (h : assign_roles s c u w sh k = some s1) :
    s1.players.map (·.name) = s.players.map (·.name) ∧
    s1.players.map (·.score) = s.players.map (·.score) ∧
    s1.players.map (·.seat) = s.players.map (·.seat) ∧
    s1.players.map (·.telegram_id) = s.players.map (·.telegram_id) ∧
    s1.players.map (·.eliminated) = s.players.map (fun _ => false) ∧
    s1.players.map (·.card) = s.players.map (fun _ => (none : Option Nat)) ∧
    s1.elimination_log = [] ∧
    s1.pending_seats = seatsOf s ∧
    s1.available_cards = seatsOf s ∧
    s1.role_distribution = some (c, u, w) ∧
    s1.word_pair = some (draw_word_pair WORD_PAIRS k) ∧
    s1.num_players = s.num_players ∧
    s1.name_order = s.name_order ∧
    s1.next_name_index = s.next_name_index := by
  unfold assign_roles assign_roles_with at h
  cases hl1 : assignLoop (s.players.map clearPlayer) sh 0 c.toNat "C"
      (draw_word_pair WORD_PAIRS k).1 with
  | none =>
    simp only [hl1] at h
    exact Option.noConfusion h
  | some pr1 =>
    obtain ⟨ps1, i1⟩ := pr1
    simp only [hl1] at h
    cases hl2 : assignLoop ps1 sh i1 u.toNat "U" (draw_word_pair WORD_PAIRS k).2 with
    | none =>
      simp only [hl2] at h
      exact Option.noConfusion h
    | some pr2 =>
      obtain ⟨ps2, i2⟩ := pr2
      simp only [hl2] at h
      cases hl3 : assignLoop ps2 sh i2 w.toNat "W" "" with
      | none =>
        simp only [hl3] at h
        exact Option.noConfusion h
      | some pr3 =>
        obtain ⟨ps3, i3⟩ := pr3
        simp only [hl3] at h
        injection h with h1
        subst h1
        have hmaps : ∀ (g : Player → String),
            (∀ r wd p, g (setRoleWord r wd p) = g p) →
            ps3.map g = (s.players.map clearPlayer).map g := by
          intro g hg
          rw [assignLoop_map g (fun r wd p => hg r wd p) _ _ _ _ _ _ _ _ hl3,
            assignLoop_map g (fun r wd p => hg r wd p) _ _ _ _ _ _ _ _ hl2,
            assignLoop_map g (fun r wd p => hg r wd p) _ _ _ _ _ _ _ _ hl1]
        refine ⟨?_, ?_, ?_, ?_, ?_, ?_, rfl, rfl, rfl, rfl, rfl, rfl, rfl, rfl⟩
        · show ps3.map (·.name) = _
          rw [assignLoop_map (·.name) (fun r wd p => rfl) _ _ _ _ _ _ _ _ hl3,
            assignLoop_map (·.name) (fun r wd p => rfl) _ _ _ _ _ _ _ _ hl2,
            assignLoop_map (·.name) (fun r wd p => rfl) _ _ _ _ _ _ _ _ hl1,
            List.map_map]
          rfl
        · show ps3.map (·.score) = _
          rw [assignLoop_map (·.score) (fun r wd p => rfl) _ _ _ _ _ _ _ _ hl3,
            assignLoop_map (·.score) (fun r wd p => rfl) _ _ _ _ _ _ _ _ hl2,
            assignLoop_map (·.score) (fun r wd p => rfl) _ _ _ _ _ _ _ _ hl1,
            List.map_map]
          rfl
        · show ps3.map (·.seat) = _
          rw [assignLoop_map (·.seat) (fun r wd p => rfl) _ _ _ _ _ _ _ _ hl3,
            assignLoop_map (·.seat) (fun r wd p => rfl) _ _ _ _ _ _ _ _ hl2,
            assignLoop_map (·.seat) (fun r wd p => rfl) _ _ _ _ _ _ _ _ hl1,
            List.map_map]
          rfl
        · show ps3.map (·.telegram_id) = _
          rw [assignLoop_map (·.telegram_id) (fun r wd p => rfl) _ _ _ _ _ _ _ _ hl3,
            assignLoop_map (·.telegram_id) (fun r wd p => rfl) _ _ _ _ _ _ _ _ hl2,
            assignLoop_map (·.telegram_id) (fun r wd p => rfl) _ _ _ _ _ _ _ _ hl1,
            List.map_map]
          rfl
        · show ps3.map (·.eliminated) = _
          rw [assignLoop_map (·.eliminated) (fun r wd p => rfl) _ _ _ _ _ _ _ _ hl3,
            assignLoop_map (·.eliminated) (fun r wd p => rfl) _ _ _ _ _ _ _ _ hl2,
            assignLoop_map (·.eliminated) (fun r wd p => rfl) _ _ _ _ _ _ _ _ hl1,
            List.map_map]
          rfl
        · show ps3.map (·.card) = _
          rw [assignLoop_map (·.card) (fun r wd p => rfl) _ _ _ _ _ _ _ _ hl3,
            assignLoop_map (·.card) (fun r wd p => rfl) _ _ _ _ _ _ _ _ hl2,
            assignLoop_map (·.card) (fun r wd p => rfl) _ _ _ _ _ _ _ _ hl1,
            List.map_map]
          rfl

/-- C7: starting the next round from a stored role distribution leaves
every player's name, Telegram binding and cumulative score unchanged,
resets every eliminated flag and drawn card, clears the elimination log,
restores the pending queue to all seats and the available cards to 1..N,
keeps the same role-distribution triple and stores a freshly drawn word
pair. -/
theorem reset_for_next_round_spec (s : GameSession) (sh : List Nat) (k : Nat)
    (c u w : Int) (s1 : GameSession)
    (hseats : seatsOf s = List.range' 1 s.num_players)
    (hdist : s.role_distribution = some (c, u, w))
    (h : reset_for_next_round s sh k = some s1) :
    s1.players.map (·.name) = s.players.map (·.name) ∧
    s1.players.map (·.score) = s.players.map (·.score) ∧
    s1.players.map (·.seat) = s.players.map (·.seat) ∧
    (∀ p ∈ s1.players, p.eliminated = false ∧ p.card = none) ∧
    s1.elimination_log = [] ∧
    s1.pending_seats = List.range' 1 s.num_players ∧
    s1.available_cards = List.range' 1 s.num_players ∧
    s1.role_distribution = s.role_distribution ∧
    s1.word_pair = some (draw_word_pair WORD_PAIRS k) ∧
    s1.num_players = s.num_players := by
  unfold reset_for_next_round at h
  simp only [hdist] at h
  have hf := assign_roles_fields h
  refine ⟨hf.1, hf.2.1, hf.2.2.1, ?_, hf.2.2.2.2.2.2.1, ?_, ?_,
    by rw [hf.2.2.2.2.2.2.2.2.2.1, hdist], hf.2.2.2.2.2.2.2.2.2.2.1,
    hf.2.2.2.2.2.2.2.2.2.2.2.1⟩
  · intro p hp
    constructor
    · have hm : p.eliminated ∈ s1.players.map (·.eliminated) :=
        List.mem_map_of_mem _ hp
      rw [hf.2.2.2.2.1] at hm
      obtain ⟨q, _, hq⟩ := List.mem_map.mp hm
      exact hq.symm
    · have hm : p.card ∈ s1.players.map (·.card) := List.mem_map_of_mem _ hp
      rw [hf.2.2.2.2.2.1] at hm
      obtain ⟨q, _, hq⟩ := List.mem_map.mp hm
      exact hq.symm
  · rw [hf.2.2.2.2.2.2.2.1, hseats]
  · rw [hf.2.2.2.2.2.2.2.2.1, hseats]

/-- Witness for C7: resetting a fresh three-player session that stores the
distribution (2, 1, 0) reproduces `c3state1` with all frame conditions. -/
theorem reset_for_next_round_witness :
    c3state1.players.map (·.name)
      = ({ initSession 3 with role_distribution := some (2, 1, 0) } :
          GameSession).players.map (·.name) ∧
    c3state1.players.map (·.score)
      = ({ initSession 3 with role_distribution := some (2, 1, 0) } :
          GameSession).players.map (·.score) ∧
    c3state1.players.map (·.seat)
      = ({ initSession 3 with role_distribution := some (2, 1, 0) } :
          GameSession).players.map (·.seat) ∧
    (∀ p ∈ c3state1.players, p.eliminated = false ∧ p.card = none) ∧
    c3state1.elimination_log = [] ∧
    c3state1.pending_seats = List.range' 1 3 ∧
    c3state1.available_cards = List.range' 1 3 ∧
    c3state1.role_distribution
      = ({ initSession 3 with role_distribution := some (2, 1, 0) } :
          GameSession).role_distribution ∧
    c3state1.word_pair = some (draw_word_pair WORD_PAIRS 0) ∧
    c3state1.num_players = 3 :=
  reset_for_next_round_spec
    { initSession 3 with role_distribution := some (2, 1, 0) } [1, 2, 3] 0
    2 1 0 c3state1 (by decide) rfl (by decide)

theorem apply_scores_log (s : GameSession) (oc : String) :
    (apply_scores s oc).elimination_log = s.elimination_log := by
  unfold apply_scores
  by_cases h : oc = "civilians" <;> simp [h]

/-- C8 (amended): an elimination request for an unknown seat or for an
already-eliminated seat is rejected with the same single
"player already out" reply, leaving the session unchanged; a request for a
known, non-eliminated seat marks exactly that seat eliminated and appends
it once to the elimination log, and the log contains each seat at most
once at every reachable state. -/
theorem handle_elimination_spec (s : GameSession) (seat : Nat) :
    (lookup s.players seat = none →
      handle_elimination s seat = (.playerAlreadyOut, s)) ∧
    (∀ pl, lookup s.players seat = some pl → pl.eliminated = true →
      handle_elimination s seat = (.playerAlreadyOut, s)) ∧
    (∀ pl, lookup s.players seat = some pl →
      eliminate s seat = some { s with
        players := updatePlayer s.players seat
          (fun p => { p with eliminated := true }),
        elimination_log := s.elimination_log ++ [seat] }) ∧
    (∀ pl, lookup s.players seat = some pl → pl.eliminated = false →
      (handle_elimination s seat).2.elimination_log
        = s.elimination_log ++ [seat]) ∧
    (Reachable s → s.elimination_log.Nodup) := by
  refine ⟨?_, ?_, ?_, ?_, fun h => (inv_reachable h).log_nodup⟩
  · intro hl
    unfold handle_elimination
    simp only [hl]
  · intro pl hl he
    unfold handle_elimination
    simp only [hl, he, if_true]
  · intro pl hl
    unfold eliminate
    simp only [hl]
  · intro pl hl he
    unfold handle_elimination
    simp only [hl, he]
    rw [if_neg (by simp)]
    have he2 : eliminate s seat = some { s with
        players := updatePlayer s.players seat
          (fun p => { p with eliminated := true }),
        elimination_log := s.elimination_log ++ [seat] } := by
      unfold eliminate
      simp only [hl]
    simp only [he2]
    cases ho : outcome { s with
        players := updatePlayer s.players seat
          (fun p => { p with eliminated := true }),
        elimination_log := s.elimination_log ++ [seat] } with
    | some oc =>
      show (apply_scores _ oc).elimination_log = _
      rw [apply_scores_log]
    | none => rfl

/-- C8 counterexample: the engine rejects an unknown seat (99 in a
three-player session) with exactly the same "player already out" reply it
uses for an already-eliminated seat, instead of a distinct UnknownSeat
error as claimed: both rejections are observationally identical. -/
theorem elimination_error_counterexample :
    lookup (initSession 3).players 99 = none ∧
    handle_elimination (initSession 3) 99 = (.playerAlreadyOut, initSession 3) ∧
    (handle_elimination (handle_elimination (initSession 3) 1).2 1).1
      = ElimReply.playerAlreadyOut := by
  refine ⟨by decide, by decide, by decide⟩

/-- Witness for C8 (amended) at concrete inputs: an unknown seat is
rejected unchanged, a valid elimination appends the seat to the log, and
the fresh session's log has no duplicates. -/
theorem handle_elimination_spec_witness :
    handle_elimination (initSession 3) 99 = (.playerAlreadyOut, initSession 3) ∧
    eliminate (initSession 3) 1 = some { initSession 3 with
      players := updatePlayer (initSession 3).players 1
        (fun p => { p with eliminated := true }),
      elimination_log := (initSession 3).elimination_log ++ [1] } ∧
    (handle_elimination (initSession 3) 1).2.elimination_log
      = (initSession 3).elimination_log ++ [1] ∧
    (initSession 3).elimination_log.Nodup :=
  ⟨(handle_elimination_spec (initSession 3) 99).1 (by decide),
   (handle_elimination_spec (initSession 3) 1).2.2.1 (mkPlayer 1) (by decide),
   (handle_elimination_spec (initSession 3) 1).2.2.2.1 (mkPlayer 1)
     (by decide) (by decide),
   (handle_elimination_spec (initSession 3) 1).2.2.2.2
     (.init 3 (by norm_num) (by norm_num))⟩

/-- C9 (amended): with the configured non-empty pair list, the per-round
word-pair draw always yields one of the configured pairs and never the
all-empty pair; with an empty configured list the draw yields the
all-empty pair (there is no failure path). -/
theorem word_pair_draw_spec (k : Nat) :
    draw_word_pair WORD_PAIRS k ∈ WORD_PAIRS ∧
    draw_word_pair WORD_PAIRS k ≠ ("", "") ∧
    draw_word_pair [] k = ("", "") := by
  have hmem : draw_word_pair WORD_PAIRS k ∈ WORD_PAIRS := by
    unfold draw_word_pair
    rw [if_neg (by decide)]
    have hlt : k % WORD_PAIRS.length < WORD_PAIRS.length :=
      Nat.mod_lt _ (by decide)
    rw [List.getD_eq_getElem?_getD, List.getElem?_eq_getElem hlt]
    exact List.getElem_mem hlt
  refine ⟨hmem, ?_, rfl⟩
  intro hcon
  have hne : ∀ pr ∈ WORD_PAIRS, pr ≠ (("" : String), ("" : String)) := by decide
  exact hne _ hmem hcon

/-- C9 counterexample: with an empty configured pair list the draw
produces the all-empty pair and `assign_roles` runs to completion,
attaching it as the round's word pair and handing out empty words — there
is no EmptyWordBank failure. -/
theorem empty_word_bank_counterexample :
    draw_word_pair [] 0 = ("", "") ∧
    (assign_roles_with [] (initSession 3) 2 1 0 [1, 2, 3] 0).map (·.word_pair)
      = some (some ("", "")) ∧
    (assign_roles_with [] (initSession 3) 2 1 0 [1, 2, 3] 0).map
      (fun s1 => s1.players.map (·.word)) = some ["", "", ""] := by
  refine ⟨rfl, by decide, by decide⟩

end Suskia
